import Mathlib

/-!
# Verification of the Klara AI Suggestion Orchestration & Nudge Engine

Shallow embedding of the core subsystem of the `klara-web-app` repository:
task signatures (`src/lib/utils/taskSignature.ts`), the AI client
orchestrator (`src/lib/services/aiClient.ts`): rate limiter, cache lookup,
request coalescing, retrying fetcher; the nudge detector
(`src/lib/services/nudgeService.ts`); and the state inference engine
(`src/lib/services/stateInferenceService.ts`).

Timestamps are modelled as natural numbers of milliseconds (`Nat`); wall
clock values are passed explicitly (`now`, `today`).  JavaScript `Map`s are
modelled as insertion-ordered association lists, Dexie tables as lists of
records, and promises as their eventual settled value.  Fallible provider
calls are modelled with `Except`: a `.error` value is a thrown/rejected
JavaScript exception, an `.ok` value is a normally returned result object.
-/

namespace Klara

/-! ## Task signature (`src/lib/utils/taskSignature.ts`) -/

/-- `ImportanceLevel` from `src/types/index.ts`: `'high' | 'low'`. -/
inductive ImportanceLevel
  | high
  | low
deriving DecidableEq, Repr

/-- `UrgencyLevel` from `src/types/index.ts`: `'high' | 'low'`. -/
inductive UrgencyLevel
  | high
  | low
deriving DecidableEq, Repr

/-- The string value of an importance level, as it appears in the signature. -/
def ImportanceLevel.str : ImportanceLevel → String
  | .high => "high"
  | .low => "low"

/-- The string value of an urgency level, as it appears in the signature. -/
def UrgencyLevel.str : UrgencyLevel → String
  | .high => "high"
  | .low => "low"

/-- JavaScript whitespace as trimmed by `String.prototype.trim` (ASCII
range: space, tab, line feed, carriage return, form feed, vertical tab). -/
def isJsWhite (c : Char) : Bool :=
  c = ' ' || c = '\t' || c = '\n' || c = '\r' || c = '\x0c' || c = '\x0b'

/-- JavaScript `String.prototype.trim`: drop whitespace from both ends. -/
def jsTrim (s : String) : String :=
  ⟨((s.data.dropWhile isJsWhite).reverse.dropWhile isJsWhite).reverse⟩

/-- `TaskSignatureInput` from `taskSignature.ts`. `dueDate: string | null`
is modelled as `Option String`. -/
structure TaskSignatureInput where
  text : String
  importance : ImportanceLevel
  urgency : UrgencyLevel
  dueDate : Option String
deriving DecidableEq, Repr

/-- `buildTaskSignature` from `taskSignature.ts`:
 `` `${text.trim()}|${importance}|${urgency}|${dueDate ?? ''}` ``. -/
def buildTaskSignature (input : TaskSignatureInput) : String :=
  jsTrim input.text ++ "|" ++ input.importance.str ++ "|" ++ input.urgency.str
    ++ "|" ++ input.dueDate.getD ""

/-- A task record (the fields of `Task`/`TaskWithDetails` from
`src/types/index.ts` that this subsystem reads).  `dueDate` keeps its raw
`YYYY-MM-DD` string here because `computeSignature` concatenates it
verbatim. -/
structure Task where
  id : String
  text : String
  completed : Bool
  importance : ImportanceLevel
  urgency : UrgencyLevel
  dueDate : Option String
  createdAt : Nat
  completedAt : Option Nat
  subTasks : List String
  aiSuggestions : List String
deriving DecidableEq, Repr

/-- `computeSignature` from the task repository (`src/unnamed/part_006`):
builds the signature from the task's text, importance, urgency and due
date. -/
def computeSignature (t : Task) : String :=
  buildTaskSignature ⟨t.text, t.importance, t.urgency, t.dueDate⟩

/-! ### Signature decomposition lemmas -/

lemma sig_data (t : Task) :
    (computeSignature t).data
      = (jsTrim t.text).data
          ++ ('|' :: (t.importance.str.data
          ++ ('|' :: (t.urgency.str.data
          ++ ('|' :: (t.dueDate.getD "").data))))) := by
  simp [computeSignature, buildTaskSignature, String.data_append]

lemma importanceStr_ne_lengths {i₁ i₂ : ImportanceLevel} (h : i₁ ≠ i₂) :
    i₁.str.data.length ≠ i₂.str.data.length := by
  cases i₁ <;> cases i₂ <;> simp_all [ImportanceLevel.str]

lemma urgencyStr_ne_lengths {u₁ u₂ : UrgencyLevel} (h : u₁ ≠ u₂) :
    u₁.str.data.length ≠ u₂.str.data.length := by
  cases u₁ <;> cases u₂ <;> simp_all [UrgencyLevel.str]

end Klara

namespace Klara

/-- C4 counterexample input: a task with text `"a"`. -/
def taskPlain : Task :=
  ⟨"1", "a", false, .high, .high, none, 0, none, [], []⟩

/-- C4 counterexample input: the same task with text `"a "` (trailing
space): the `text` field changed, the signature did not. -/
def taskPadded : Task :=
  ⟨"1", "a ", false, .high, .high, none, 0, none, [], []⟩

/-- C4 counterexample: the claim says changing any field inside
`{text, importance, urgency, dueDate}` changes `buildTaskSignature`'s
output.  False: `taskPlain` and `taskPadded` differ only in `text`
(a whitespace-only edit), yet their signatures coincide because the text is
trimmed before concatenation. -/
theorem signature_whitespace_collision :
    computeSignature taskPlain = computeSignature taskPadded
      ∧ taskPlain.text ≠ taskPadded.text := by
  constructor
  · decide
  · decide

/-- C4 (amended): fields outside `{text, importance, urgency, dueDate}`
never affect the signature; changing `importance` or `urgency` alone always
changes it; changing `text` alone changes it iff the trimmed text changes;
changing `dueDate` alone changes it iff the date rendered as a string
(empty for null) changes. -/
theorem signature_stability :
    (∀ t₁ t₂ : Task, t₁.text = t₂.text → t₁.importance = t₂.importance →
      t₁.urgency = t₂.urgency → t₁.dueDate = t₂.dueDate →
      computeSignature t₁ = computeSignature t₂)
    ∧ (∀ t₁ t₂ : Task, t₁.text = t₂.text → t₁.urgency = t₂.urgency →
      t₁.dueDate = t₂.dueDate → t₁.importance ≠ t₂.importance →
      computeSignature t₁ ≠ computeSignature t₂)
    ∧ (∀ t₁ t₂ : Task, t₁.text = t₂.text → t₁.importance = t₂.importance →
      t₁.dueDate = t₂.dueDate → t₁.urgency ≠ t₂.urgency →
      computeSignature t₁ ≠ computeSignature t₂)
    ∧ (∀ t₁ t₂ : Task, t₁.importance = t₂.importance →
      t₁.urgency = t₂.urgency → t₁.dueDate = t₂.dueDate →
      (computeSignature t₁ = computeSignature t₂ ↔
        jsTrim t₁.text = jsTrim t₂.text))
    ∧ (∀ t₁ t₂ : Task, t₁.text = t₂.text → t₁.importance = t₂.importance →
      t₁.urgency = t₂.urgency →
      (computeSignature t₁ = computeSignature t₂ ↔
        t₁.dueDate.getD "" = t₂.dueDate.getD "")) := by
  refine ⟨?_, ?_, ?_, ?_, ?_⟩
  · intro t₁ t₂ h₁ h₂ h₃ h₄
    simp [computeSignature, buildTaskSignature, h₁, h₂, h₃, h₄]
  · intro t₁ t₂ h₁ h₃ h₄ h₂ hsig
    have hd := congrArg String.data hsig
    rw [sig_data, sig_data, h₁, h₃, h₄] at hd
    have hmid := List.append_cancel_left hd
    have hmid₂ := (List.cons.injEq _ _ _ _ ▸ hmid).2
    have hlen := congrArg List.length hmid₂
    simp only [List.length_append] at hlen
    exact importanceStr_ne_lengths h₂ (by omega)
  · intro t₁ t₂ h₁ h₂ h₄ h₃ hsig
    have hd := congrArg String.data hsig
    rw [sig_data, sig_data, h₁, h₂, h₄] at hd
    have hmid := List.append_cancel_left hd
    have hmid₂ := (List.cons.injEq _ _ _ _ ▸ hmid).2
    have hmid₃ := List.append_cancel_left hmid₂
    have hmid₄ := (List.cons.injEq _ _ _ _ ▸ hmid₃).2
    have hlen := congrArg List.length hmid₄
    simp only [List.length_append] at hlen
    exact urgencyStr_ne_lengths h₃ (by omega)
  · intro t₁ t₂ h₂ h₃ h₄
    constructor
    · intro hsig
      have hd := congrArg String.data hsig
      rw [sig_data, sig_data, h₂, h₃, h₄] at hd
      exact String.ext (List.append_cancel_right hd)
    · intro htrim
      simp [computeSignature, buildTaskSignature, htrim, h₂, h₃, h₄]
  · intro t₁ t₂ h₁ h₂ h₃
    constructor
    · intro hsig
      have hd := congrArg String.data hsig
      rw [sig_data, sig_data, h₁, h₂, h₃] at hd
      have h₅ := List.append_cancel_left hd
      have h₆ := (List.cons.injEq _ _ _ _ ▸ h₅).2
      have h₇ := List.append_cancel_left h₆
      have h₈ := (List.cons.injEq _ _ _ _ ▸ h₇).2
      have h₉ := List.append_cancel_left h₈
      have h₁₀ := (List.cons.injEq _ _ _ _ ▸ h₉).2
      exact String.ext h₁₀
    · intro hdue
      simp [computeSignature, buildTaskSignature, hdue, h₁, h₂, h₃]

/-- Witness for `signature_stability` at concrete inputs: changing
importance alone changes the signature of `taskPlain`. -/
theorem signature_stability_witness :
    computeSignature taskPlain
      ≠ computeSignature ⟨"1", "a", false, .low, .high, none, 0, none, [], []⟩ :=
  signature_stability.2.1 taskPlain
    ⟨"1", "a", false, .low, .high, none, 0, none, [], []⟩
    rfl rfl rfl (by decide)

/-! ## Rate limiter (`src/lib/services/aiClient.ts`, lines 47-85) -/

/-- One bucket configuration from `RATE_CONFIG`. -/
structure RateConfig where
  windowMs : Nat
  max : Nat
deriving DecidableEq, Repr

/-- The four bucket configurations of `RATE_CONFIG`. -/
def ratePerTask5m : RateConfig := ⟨5 * 60 * 1000, 1⟩

def ratePerTask1h : RateConfig := ⟨60 * 60 * 1000, 3⟩

def ratePerUser1m : RateConfig := ⟨60 * 1000, 3⟩

def ratePerUser1h : RateConfig := ⟨60 * 60 * 1000, 10⟩

/-- The pruning step of `withinLimit`: keep only timestamps with
`now - ts <= windowMs`.  `Nat` subtraction truncates at zero exactly as the
JavaScript comparison admits timestamps not older than the window. -/
def pruneWindow (cfg : RateConfig) (now : Nat) (entries : List Nat) : List Nat :=
  entries.filter (fun ts => now - ts ≤ cfg.windowMs)

/-- `withinLimit` from `aiClient.ts` applied to one key's timestamp list:
prune, then either reject (storing the pruned list) or append `now` and
admit.  Returns the admission flag and the list stored back into the map. -/
def withinLimit (cfg : RateConfig) (now : Nat) (entries : List Nat) :
    Bool × List Nat :=
  let valid := pruneWindow cfg now entries
  if cfg.max ≤ valid.length then (false, valid)
  else (true, valid ++ [now])

/-- Sequentially issue requests at the given times against one bucket key,
threading the stored timestamp list; returns the per-request admission
flags and the final stored list. -/
def runRequests (cfg : RateConfig) (entries : List Nat) :
    List Nat → List Bool × List Nat
  | [] => ([], entries)
  | t :: ts =>
    let step := withinLimit cfg t entries
    let rest := runRequests cfg step.2 ts
    (step.1 :: rest.1, rest.2)

lemma pruneWindow_eq_self {cfg : RateConfig} {now t₀ : Nat} {l : List Nat}
    (hl : ∀ x ∈ l, t₀ ≤ x) (hnow : now ≤ t₀ + cfg.windowMs) :
    pruneWindow cfg now l = l := by
  rw [pruneWindow, List.filter_eq_self]
  intro x hx
  have h₁ : now - x ≤ now - t₀ := Nat.sub_le_sub_left (hl x hx) now
  have h₂ : now - t₀ ≤ cfg.windowMs := by omega
  simpa using le_trans h₁ h₂

/-- Core sliding-window lemma: starting from a stored list `e` whose
timestamps are all at least `t₀`, a burst of requests all lying within
`[t₀, t₀ + windowMs]` is admitted exactly until the stored list reaches
`max` elements, and the final list is `e` plus the first admitted times. -/
lemma runRequests_burst (cfg : RateConfig) (t₀ : Nat) :
    ∀ (times e : List Nat), (∀ x ∈ e, t₀ ≤ x) →
      (∀ t ∈ times, t₀ ≤ t ∧ t ≤ t₀ + cfg.windowMs) →
      runRequests cfg e times
        = (List.replicate (min (cfg.max - e.length) times.length) true
            ++ List.replicate (times.length - (cfg.max - e.length)) false,
           e ++ times.take (cfg.max - e.length))
  | [], e, _, _ => by simp [runRequests]
  | t :: ts, e, he, hts => by
    have hnow : t ≤ t₀ + cfg.windowMs := (hts t (by simp)).2
    have ht₀ : t₀ ≤ t := (hts t (by simp)).1
    have hprune : pruneWindow cfg t e = e := pruneWindow_eq_self he hnow
    by_cases hfull : cfg.max ≤ e.length
    · have hstep : withinLimit cfg t e = (false, e) := by
        simp [withinLimit, hprune, hfull]
      have ih := runRequests_burst cfg t₀ ts e he
        (fun x hx => hts x (by simp [hx]))
      have hz : cfg.max - e.length = 0 := by omega
      simp [runRequests, hstep, ih, hz, List.replicate_succ]
    · have hstep : withinLimit cfg t e = (true, e ++ [t]) := by
        simp only [withinLimit, hprune]
        rw [if_neg (by omega)]
      have he' : ∀ x ∈ e ++ [t], t₀ ≤ x := by
        intro x hx
        rcases List.mem_append.mp hx with h | h
        · exact he x h
        · simp at h; omega
      have ih := runRequests_burst cfg t₀ ts (e ++ [t]) he'
        (fun x hx => hts x (by simp [hx]))
      have hlen : (e ++ [t]).length = e.length + 1 := by simp
      have hk : cfg.max - e.length = (cfg.max - (e.length + 1)) + 1 := by omega
      simp only [runRequests, hstep, ih, hlen]
      refine Prod.ext ?_ ?_
      · have hmin : (cfg.max - e.length) ⊓ (ts.length + 1)
            = ((cfg.max - (e.length + 1)) ⊓ ts.length) + 1 := by omega
        have hsub : (ts.length + 1) - (cfg.max - e.length)
            = ts.length - (cfg.max - (e.length + 1)) := by omega
        simp [hmin, hsub, List.replicate_succ]
      · simp [hk, List.append_assoc]

/-- C5: sliding-window semantics of `withinLimit`.
Part 1: from an empty bucket, for requests all within a window of length
`windowMs` starting at the first request's time, exactly the first
`max` are admitted, every later one is rejected, and the stored list holds
exactly the admitted timestamps.
Part 2: a rejected request stores the pruned list without appending.
Part 3: after such a burst of at least `max` requests, a request issued
strictly later than `t₀ + windowMs` is admitted again. -/
theorem withinLimit_sliding_window (cfg : RateConfig) (t₀ : Nat)
    (times : List Nat) (hhead : times.head? = some t₀)
    (hts : ∀ t ∈ times, t₀ ≤ t ∧ t ≤ t₀ + cfg.windowMs)
    (hmax : 1 ≤ cfg.max) :
    (runRequests cfg [] times
      = (List.replicate (min cfg.max times.length) true
          ++ List.replicate (times.length - cfg.max) false,
         times.take cfg.max))
    ∧ (∀ (now : Nat) (entries : List Nat),
        (withinLimit cfg now entries).1 = false →
        (withinLimit cfg now entries).2 = pruneWindow cfg now entries)
    ∧ (∀ ε, 1 ≤ ε → cfg.max ≤ times.length →
        (withinLimit cfg (t₀ + cfg.windowMs + ε) (times.take cfg.max)).1
          = true) := by
  refine ⟨?_, ?_, ?_⟩
  · have h := runRequests_burst cfg t₀ times [] (by simp) hts
    simpa using h
  · intro now entries hrej
    by_cases h : cfg.max ≤ (pruneWindow cfg now entries).length
    · simp [withinLimit, h]
    · simp [withinLimit, h] at hrej
  · intro ε hε hlen
    obtain ⟨rest, hrest⟩ : ∃ rest, times = t₀ :: rest := by
      cases times with
      | nil => simp at hhead
      | cons a l =>
        simp only [List.head?_cons, Option.some.injEq] at hhead
        exact ⟨l, by rw [hhead]⟩
    subst hrest
    have htake : (t₀ :: rest).take cfg.max
        = t₀ :: rest.take (cfg.max - 1) := by
      obtain ⟨m, hm⟩ : ∃ m, cfg.max = m + 1 := ⟨cfg.max - 1, by omega⟩
      simp [hm]
    rw [htake]
    have hdrop : pruneWindow cfg (t₀ + cfg.windowMs + ε)
        (t₀ :: rest.take (cfg.max - 1))
        = pruneWindow cfg (t₀ + cfg.windowMs + ε) (rest.take (cfg.max - 1)) := by
      simp only [pruneWindow, List.filter_cons]
      rw [if_neg (by simp; omega)]
    have hshort : (pruneWindow cfg (t₀ + cfg.windowMs + ε)
        (rest.take (cfg.max - 1))).length < cfg.max := by
      have h₁ := List.length_filter_le
        (fun ts => decide (t₀ + cfg.windowMs + ε - ts ≤ cfg.windowMs))
        (rest.take (cfg.max - 1))
      have h₂ : (rest.take (cfg.max - 1)).length ≤ cfg.max - 1 := by
        simp [List.length_take]
      simp only [pruneWindow]
      omega
    have hlt : ¬ cfg.max ≤ (pruneWindow cfg (t₀ + cfg.windowMs + ε)
        (rest.take (cfg.max - 1))).length := by omega
    simp [withinLimit, hdrop, hlt]

/-- Witness for `withinLimit_sliding_window`: the per-user-per-minute
bucket (window 60 s, max 3) on a burst of five requests admits exactly the
first three; the rejected fourth does not append; a request just after the
window reopens admission. -/
theorem withinLimit_sliding_window_witness :
    (runRequests ratePerUser1m [] [1000, 2000, 3000, 4000, 5000]
      = ([true, true, true, false, false], [1000, 2000, 3000]))
    ∧ (withinLimit ratePerUser1m 61001 [1000, 2000, 3000]).1 = true := by
  have h := withinLimit_sliding_window ratePerUser1m 1000
    [1000, 2000, 3000, 4000, 5000] (by decide) (by decide) (by decide)
  refine ⟨?_, ?_⟩
  · have h₁ := h.1
    simpa using h₁
  · have h₃ := h.2.2 1 (by decide) (by decide)
    simpa using h₃

/-! ## AI client data model (`src/lib/services/aiClient.ts`) -/

/-- `SuggestSubtasksResult` from `aiClient.ts`.  Optional fields are
`Option`; `fromCache`/`rateLimited` stay unset (`none`) unless assigned. -/
structure SuggestResult where
  suggestions : List String
  success : Bool
  error : Option String := none
  fromCache : Option Bool := none
  rateLimited : Option Bool := none
deriving DecidableEq, Repr

/-- Status of a cached suggestion bundle (`'active' | 'consumed'`). -/
inductive SuggStatus
  | active
  | consumed
deriving DecidableEq, Repr

/-- A row of the `aiSuggestions` Dexie table, as written by
`saveSuggestions` and the task repository. -/
structure CacheRecord where
  id : String
  taskId : String
  suggestions : List String
  taskSignature : String
  status : SuggStatus
  createdAt : Nat
  expiresAt : Nat
deriving DecidableEq, Repr

/-- `CACHE_TTL_MS` from `aiClient.ts`: 24 hours. -/
def CACHE_TTL_MS : Nat := 24 * 60 * 60 * 1000

/-- `SuggestSubtasksParams` from `aiClient.ts` (the fields the orchestrator
reads; `toneStyle`/`inferredState` only flow into the HTTP body and are
omitted). -/
structure SuggestParams where
  taskText : String
  existingSubtasks : List String := []
  taskId : Option String := none
  taskSignature : Option String := none
deriving DecidableEq, Repr

/-- Association-list lookup, modelling JavaScript `Map.get`. -/
def lookupA {α : Type} (m : List (String × α)) (k : String) : Option α :=
  match m.find? (fun q => q.1 == k) with
  | some q => some q.2
  | none => none

/-- Association-list update, modelling JavaScript `Map.set` (insertion
order preserved, existing key overwritten in place). -/
def setA {α : Type} (m : List (String × α)) (k : String) (v : α) :
    List (String × α) :=
  match m with
  | [] => [(k, v)]
  | q :: rest => if q.1 == k then (k, v) :: rest else q :: setA rest k v

/-- The fallback signature built by `getSignatureFromParams` when the
caller did not supply one: text with hardcoded `importance: 'high'`,
`urgency: 'high'`, `dueDate: null`. -/
def fallbackSignature (p : SuggestParams) : String :=
  buildTaskSignature ⟨p.taskText, .high, .high, none⟩

/-- `getSignatureFromParams` from `aiClient.ts`: the supplied signature if
truthy (non-empty), else the fallback text-only signature. -/
def getSignatureFromParams (p : SuggestParams) : String :=
  match p.taskSignature with
  | some s => if s = "" then fallbackSignature p else s
  | none => fallbackSignature p

/-- The task-scoped rate key and the coalescing key, both computed by the
JavaScript expression `params.taskSignature || params.taskId ||
params.taskText` (`buildRateKey` and the `inflightKey` of
`requestAISuggestions`); `||` skips falsy (empty) strings. -/
def buildTaskKey (p : SuggestParams) : String :=
  match p.taskSignature with
  | some s => if s = "" then buildTaskKeyFallback p else s
  | none => buildTaskKeyFallback p
where
  buildTaskKeyFallback (p : SuggestParams) : String :=
    match p.taskId with
    | some t => if t = "" then p.taskText else t
    | none => p.taskText

instance {ε α : Type} [DecidableEq ε] [DecidableEq α] :
    DecidableEq (Except ε α)
  | .error a, .error b =>
    decidable_of_iff (a = b) ⟨fun h => by rw [h], fun h => by injection h⟩
  | .ok a, .ok b =>
    decidable_of_iff (a = b) ⟨fun h => by rw [h], fun h => by injection h⟩
  | .error _, .ok _ => isFalse fun h => by injection h
  | .ok _, .error _ => isFalse fun h => by injection h

/-- The module-level mutable state of `aiClient.ts`: the four rate-limit
maps, the `aiSuggestions` table, and the in-flight coalescing map (a
promise is modelled by its eventual settled value).  `providerCalls`
counts launched provider calls and `cachePuts` counts cache writes; both
are instrumentation for the frame theorems, not source state. -/
structure ClientState where
  perTask5m : List (String × List Nat)
  perTask1h : List (String × List Nat)
  perUser1m : List (String × List Nat)
  perUser1h : List (String × List Nat)
  cache : List CacheRecord
  inFlight : List (String × Except String SuggestResult)
  providerCalls : Nat
  cachePuts : Nat
deriving DecidableEq, Repr

/-- Fresh module state: empty maps, empty table. -/
def emptyClientState : ClientState := ⟨[], [], [], [], [], [], 0, 0⟩

/-- `withinLimit` lifted to one named bucket map. -/
def mapWithinLimit (cfg : RateConfig) (m : List (String × List Nat))
    (key : String) (now : Nat) : Bool × List (String × List Nat) :=
  let entries := (lookupA m key).getD []
  let step := withinLimit cfg now entries
  (step.1, setA m key step.2)

def msgPerTask5m : String :=
  "This task just asked AI. Give it a few minutes and try again."

def msgPerTask1h : String :=
  "This task hit its hourly AI limit. Try again later."

def msgPerUser1m : String :=
  "AI is taking a short breather. Please retry in a moment."

def msgPerUser1h : String :=
  "You reached the hourly AI limit. Please try again later."

/-- `checkRateLimits` from `aiClient.ts`: evaluate the four buckets in
priority order, returning the first violated bucket's message; buckets
after a violated one are not evaluated (their slots are not consumed). -/
def checkRateLimits (p : SuggestParams) (now : Nat) (st : ClientState) :
    Option String × ClientState :=
  let tk := buildTaskKey p
  let s1 := mapWithinLimit ratePerTask5m st.perTask5m tk now
  let st1 := { st with perTask5m := s1.2 }
  if !s1.1 then (some msgPerTask5m, st1)
  else
    let s2 := mapWithinLimit ratePerTask1h st1.perTask1h tk now
    let st2 := { st1 with perTask1h := s2.2 }
    if !s2.1 then (some msgPerTask1h, st2)
    else
      let s3 := mapWithinLimit ratePerUser1m st2.perUser1m "user-default" now
      let st3 := { st2 with perUser1m := s3.2 }
      if !s3.1 then (some msgPerUser1m, st3)
      else
        let s4 := mapWithinLimit ratePerUser1h st3.perUser1h "user-default" now
        let st4 := { st3 with perUser1h := s4.2 }
        if !s4.1 then (some msgPerUser1h, st4)
        else (none, st4)

/-- `getCachedSuggestions` from `aiClient.ts`: find the first record for
the task; on signature mismatch or expiry delete it and miss; otherwise
hit with `fromCache: true`.  Note: the record's `status` field is NOT
inspected. -/
def getCachedSuggestions (taskId : Option String) (signature : String)
    (now : Nat) (cache : List CacheRecord) :
    Option SuggestResult × List CacheRecord :=
  match taskId with
  | none => (none, cache)
  | some tid =>
    if tid = "" ∨ signature = "" then (none, cache)
    else
      match cache.find? (fun r => r.taskId == tid) with
      | none => (none, cache)
      | some record =>
        if record.taskSignature ≠ signature ∨ record.expiresAt < now then
          (none, cache.filter (fun r => r.id ≠ record.id))
        else
          (some { suggestions := record.suggestions, success := true,
                  fromCache := some true }, cache)

/-- Dexie `put`: upsert by primary key `id`. -/
def putRecord (cache : List CacheRecord) (r : CacheRecord) :
    List CacheRecord :=
  if cache.any (fun x => x.id == r.id) then
    cache.map (fun x => if x.id == r.id then r else x)
  else cache ++ [r]

/-- `saveSuggestions` from `aiClient.ts`: skip the write when `taskId` or
`signature` is falsy or the suggestion list is empty; otherwise upsert one
record with `status: 'active'` and a 24 h expiry.  The second component
reports whether a write happened. -/
def saveSuggestions (taskId : Option String) (signature : String)
    (suggs : List String) (now : Nat) (cache : List CacheRecord) :
    List CacheRecord × Bool :=
  match taskId with
  | none => (cache, false)
  | some tid =>
    if tid = "" ∨ signature = "" ∨ suggs = [] then (cache, false)
    else
      (putRecord cache
        ⟨tid ++ "-ai-suggestion", tid, suggs, signature, .active, now,
         now + CACHE_TTL_MS⟩, true)

/-! ## Retrying fetcher (`fetchWithRetry`, `aiClient.ts` lines 162-209) -/

/-- `N_RETRY` from `aiClient.ts`: total attempts = 1 + N_RETRY. -/
def N_RETRY : Nat := 2

/-- ASCII lower-casing of one character (`String.prototype.toLowerCase`
restricted to the ASCII range relevant to the error strings). -/
def asciiLower (c : Char) : Char :=
  if 'A' ≤ c ∧ c ≤ 'Z' then Char.ofNat (c.toNat + 32) else c

/-- Naive substring search over character lists, modelling
`String.prototype.includes`. -/
def containsSeq (pat : List Char) : List Char → Bool
  | [] => pat.isEmpty
  | c :: rest => pat.isPrefixOf (c :: rest) || containsSeq pat rest

/-- The retryability test of `fetchWithRetry`: retry when there is no
error message, or it mentions `network` (case-insensitive), or it starts
with `HTTP 5`. -/
def isRetryable (r : SuggestResult) : Bool :=
  match r.error with
  | none => true
  | some e =>
    containsSeq "network".data (e.data.map asciiLower)
      || "HTTP 5".data.isPrefixOf e.data

/-- JavaScript `Math.round`: floor of x + 1/2. -/
def jsRound (q : ℚ) : ℤ := ⌊q + 1 / 2⌋

/-- The backoff delay before the retry following failed attempt `i`:
`Math.round(300 * 3^i * (1 + Math.random() * 0.2))`, with `rand i`
standing for that call's `Math.random()` draw. -/
def backoffMs (rand : Nat → ℚ) (i : Nat) : ℤ :=
  jsRound (300 * 3 ^ i * (1 + rand i * (1 / 5)))

/-- Observable outcome of one `fetchWithRetry` run: the settled value
(`.error` = the promise rejected with a thrown exception), how many
attempts ran, and the backoff delays slept between them. -/
structure FetchTrace where
  result : Except String SuggestResult
  attempts : Nat
  delays : List ℤ
deriving DecidableEq, Repr

/-- The retry loop of `fetchWithRetry`.  `provider i` is attempt `i`'s
outcome (`.error` models `fetch`/`json` rejecting — the source has no
try/catch, so it propagates); `fuel` is the number of retries left. -/
def fetchGo (provider : Nat → Except String SuggestResult)
    (rand : Nat → ℚ) : Nat → Nat → FetchTrace
  | i, 0 =>
    match provider i with
    | .error e => ⟨.error e, 1, []⟩
    | .ok r => ⟨.ok r, 1, []⟩
  | i, fuel + 1 =>
    match provider i with
    | .error e => ⟨.error e, 1, []⟩
    | .ok r =>
      if r.success then ⟨.ok r, 1, []⟩
      else if !isRetryable r then ⟨.ok r, 1, []⟩
      else
        let rest := fetchGo provider rand (i + 1) fuel
        ⟨rest.result, rest.attempts + 1, backoffMs rand i :: rest.delays⟩

/-- `fetchWithRetry` from `aiClient.ts`: up to `1 + N_RETRY` attempts. -/
def fetchWithRetry (provider : Nat → Except String SuggestResult)
    (rand : Nat → ℚ) : FetchTrace :=
  fetchGo provider rand 0 N_RETRY

/-! ## Suggestion orchestrator (`requestAISuggestions`) -/

/-- What a caller observes when `requestAISuggestions` runs its
synchronous entry section (everything before the provider call):
`done` — returned without any network activity; `joined` — returned the
existing in-flight promise for the key; `launched` — started the provider
call for the key. -/
inductive EntryOutcome
  | done (r : SuggestResult)
  | joined (v : Except String SuggestResult)
  | launched (key : String)
deriving DecidableEq, Repr

/-- The rate-limited failure result built by `requestAISuggestions`. -/
def rateLimitedResult (msg : String) : SuggestResult :=
  { suggestions := [], success := false, error := some msg,
    rateLimited := some true }

/-- Entry section of `requestAISuggestions`: signature, cache lookup
(with lazy eviction), rate check, coalescing-map check.  `pending` is the
eventual settled value of the promise this call would create — it is
stored in the in-flight map when the call launches (a promise is modelled
by its eventual value).  Between the `inFlight.has` check and
`inFlight.set` the source reaches no `await`, so this whole section is one
atomic event-loop step. -/
def requestEntry (p : SuggestParams)
    (pending : Except String SuggestResult) (now : Nat) (st : ClientState) :
    EntryOutcome × ClientState :=
  let signature := getSignatureFromParams p
  let c := getCachedSuggestions p.taskId signature now st.cache
  let st1 := { st with cache := c.2 }
  match c.1 with
  | some r => (.done r, st1)
  | none =>
    let rc := checkRateLimits p now st1
    match rc.1 with
    | some msg => (.done (rateLimitedResult msg), rc.2)
    | none =>
      let key := buildTaskKey p
      match lookupA rc.2.inFlight key with
      | some v => (.joined v, rc.2)
      | none =>
        (.launched key,
         { rc.2 with inFlight := setA rc.2.inFlight key pending,
                     providerCalls := rc.2.providerCalls + 1 })

/-- Remove a settled key from the in-flight map (`.finally` handler). -/
def removeInFlight (key : String)
    (m : List (String × Except String SuggestResult)) :
    List (String × Except String SuggestResult) :=
  m.filter (fun q => q.1 ≠ key)

/-- Settlement section of `requestAISuggestions` for the launching caller:
on fetch success persist to cache and return with `fromCache: false`; on
fetch failure return the failure unchanged; on a thrown exception the
rejection propagates.  In all cases `.finally` removes the key. -/
def requestSettle (p : SuggestParams) (tr : Except String SuggestResult)
    (key : String) (now : Nat) (st : ClientState) :
    Except String SuggestResult × ClientState :=
  match tr with
  | .error e => (.error e, { st with inFlight := removeInFlight key st.inFlight })
  | .ok r =>
    if r.success then
      let sv := saveSuggestions p.taskId (getSignatureFromParams p)
        r.suggestions now st.cache
      (.ok { r with fromCache := some false },
       { st with cache := sv.1,
                 cachePuts := st.cachePuts + (if sv.2 then 1 else 0),
                 inFlight := removeInFlight key st.inFlight })
    else (.ok r, { st with inFlight := removeInFlight key st.inFlight })

/-- The value the in-flight promise eventually settles to, as observed by
every coalesced waiter. -/
def settleValue (tr : Except String SuggestResult) :
    Except String SuggestResult :=
  match tr with
  | .ok r => .ok (if r.success then { r with fromCache := some false } else r)
  | .error e => .error e

/-- `requestAISuggestions` from `aiClient.ts`, one complete call with no
interleaving: entry section, then (for the launching caller) the retrying
fetch and the settlement section.  `.error` in the first component means
the call rejected (threw) rather than returning a result. -/
def requestAISuggestions (p : SuggestParams)
    (provider : Nat → Except String SuggestResult) (rand : Nat → ℚ)
    (now : Nat) (st : ClientState) :
    Except String SuggestResult × ClientState :=
  let trace := fetchWithRetry provider rand
  match requestEntry p (settleValue trace.result) now st with
  | (.done r, st1) => (.ok r, st1)
  | (.joined v, st1) => (v, st1)
  | (.launched key, st1) => requestSettle p trace.result key now st1

/-- `isActiveSuggestion` from the task repository (`src/unnamed/part_006`):
the repository's own read path rejects records whose status is not
`'active'`. -/
def isActiveSuggestion (record : Option CacheRecord) (signature : String) :
    Bool :=
  match record with
  | none => false
  | some r => if r.status ≠ SuggStatus.active then false
              else r.taskSignature == signature

/-! ## C3: consumed cache entries -/

/-- The C3 failing input: a consumed suggestion record whose signature
still matches and whose expiry is in the future. -/
def consumedRecord : CacheRecord :=
  ⟨"t1-ai-suggestion", "t1", ["step one"], "sig", .consumed, 0, 86400000⟩

/-- The C3 request: same task, same signature. -/
def consumedParams : SuggestParams :=
  { taskText := "t", taskId := some "t1", taskSignature := some "sig" }

/-- C3 (code bug): the repository marks consumed records inactive
(`isActiveSuggestion` is false for `consumedRecord`, matching
`markSuggestionsConsumed`'s stated purpose of preventing re-surfacing),
but `requestAISuggestions`' own cache lookup never inspects `status`: at
this input it returns the consumed entry as a `fromCache` hit. -/
theorem consumed_entry_resurfaced :
    isActiveSuggestion (some consumedRecord) "sig" = false
      ∧ (requestAISuggestions consumedParams
            (fun _ => .ok { suggestions := ["x"], success := true })
            (fun _ => 0) 1000
            { emptyClientState with cache := [consumedRecord] }).1
          = .ok { suggestions := ["step one"], success := true,
                  fromCache := some true } := by
  constructor
  · decide
  · decide

/-! ## C2: exception propagation out of the orchestrator -/

/-- The C2 failing input: a plain request with no cached entry. -/
def throwParams : SuggestParams := { taskText := "Plan the team offsite" }

/-- C2 (code bug): `aiClient.ts` contains no try/catch, so when the
provider call itself rejects (as browser `fetch` does on a network
failure), the rejection propagates out of `requestAISuggestions` instead
of being converted into a discriminated result: at this input the call
settles to `.error`, not to an `.ok` result value. -/
theorem orchestrator_propagates_exception :
    (requestAISuggestions throwParams
        (fun _ => .error "TypeError: Failed to fetch")
        (fun _ => 0) 0 emptyClientState).1
      = .error "TypeError: Failed to fetch" := by
  decide

/-! ## C7: retry policy and backoff bounds -/

lemma fetchGo_base (provider : Nat → Except String SuggestResult)
    (rand : Nat → ℚ) (i : Nat) (r : SuggestResult)
    (hp : provider i = .ok r) :
    fetchGo provider rand i 0 = ⟨.ok r, 1, []⟩ := by
  simp [fetchGo, hp]

lemma fetchGo_step (provider : Nat → Except String SuggestResult)
    (rand : Nat → ℚ) (i fuel : Nat) (r : SuggestResult)
    (hp : provider i = .ok r) (hs : r.success = false)
    (hr : isRetryable r = true) :
    fetchGo provider rand i (fuel + 1)
      = ⟨(fetchGo provider rand (i + 1) fuel).result,
         (fetchGo provider rand (i + 1) fuel).attempts + 1,
         backoffMs rand i :: (fetchGo provider rand (i + 1) fuel).delays⟩ := by
  simp [fetchGo, hp, hs, hr]

lemma backoffMs_bounds (rand : Nat → ℚ) (i : Nat)
    (h0 : 0 ≤ rand i) (h1 : rand i < 1) :
    (300 * 3 ^ i : ℤ) ≤ backoffMs rand i
      ∧ backoffMs rand i ≤ 360 * 3 ^ i := by
  have hpow : (0 : ℚ) < 3 ^ i := pow_pos (by norm_num) i
  constructor
  · rw [backoffMs, jsRound, Int.le_floor]
    push_cast
    nlinarith
  · have h2 : backoffMs rand i < 360 * 3 ^ i + 1 := by
      rw [backoffMs, jsRound, Int.floor_lt]
      push_cast
      nlinarith
    omega

/-- C7: retry policy of `fetchWithRetry`.
Part 1: a provider failing with a retryable error on every attempt causes
exactly `1 + N_RETRY = 3` attempts, returns the last failure, and sleeps
the two backoff delays.
Part 2: a non-retryable failure causes exactly 1 attempt with no retry.
Part 3: with each jitter draw in `[0,1)` (so each factor `1 + jitter*0.2`
in `[1, 1.2)`), the total added delay lies in `[1200, 1440]` =
`[Σdelays, Σdelays × 1.2]` for `Σdelays = 300 + 900`. -/
theorem fetchWithRetry_policy :
    (∀ (provider : Nat → Except String SuggestResult) (rand : Nat → ℚ)
        (r₀ r₁ r₂ : SuggestResult),
      provider 0 = .ok r₀ → provider 1 = .ok r₁ → provider 2 = .ok r₂ →
      r₀.success = false → r₁.success = false →
      isRetryable r₀ = true → isRetryable r₁ = true →
      fetchWithRetry provider rand
        = ⟨.ok r₂, 1 + N_RETRY, [backoffMs rand 0, backoffMs rand 1]⟩)
    ∧ (∀ (provider : Nat → Except String SuggestResult) (rand : Nat → ℚ)
        (r₀ : SuggestResult),
      provider 0 = .ok r₀ → r₀.success = false → isRetryable r₀ = false →
      fetchWithRetry provider rand = ⟨.ok r₀, 1, []⟩)
    ∧ (∀ rand : Nat → ℚ,
      0 ≤ rand 0 → rand 0 < 1 → 0 ≤ rand 1 → rand 1 < 1 →
      1200 ≤ backoffMs rand 0 + backoffMs rand 1
        ∧ backoffMs rand 0 + backoffMs rand 1 ≤ 1440) := by
  refine ⟨?_, ?_, ?_⟩
  · intro provider rand r₀ r₁ r₂ hp₀ hp₁ hp₂ hs₀ hs₁ hr₀ hr₁
    have e₂ : fetchGo provider rand 2 0 = ⟨.ok r₂, 1, []⟩ :=
      fetchGo_base provider rand 2 r₂ hp₂
    have e₁ := fetchGo_step provider rand 1 0 r₁ hp₁ hs₁ hr₁
    have e₀ := fetchGo_step provider rand 0 1 r₀ hp₀ hs₀ hr₀
    show fetchGo provider rand 0 (1 + 1) = _
    rw [e₀]
    show FetchTrace.mk
      (fetchGo provider rand 1 (0 + 1)).result
      ((fetchGo provider rand 1 (0 + 1)).attempts + 1)
      (backoffMs rand 0 :: (fetchGo provider rand 1 (0 + 1)).delays) = _
    rw [e₁, e₂]
    simp [N_RETRY]
  · intro provider rand r₀ hp₀ hs₀ hr₀
    show fetchGo provider rand 0 (1 + 1) = _
    simp [fetchGo, hp₀, hs₀, hr₀]
  · intro rand h00 h01 h10 h11
    have b₀ := backoffMs_bounds rand 0 h00 h01
    have b₁ := backoffMs_bounds rand 1 h10 h11
    have n₀ : ((3 : ℤ) ^ (0 : ℕ)) = 1 := by norm_num
    have n₁ : ((3 : ℤ) ^ (1 : ℕ)) = 3 := by norm_num
    rw [n₀] at b₀
    rw [n₁] at b₁
    omega

/-- The C7 witness provider: every attempt returns a 5xx-class failure. -/
def failingProvider : Nat → Except String SuggestResult :=
  fun _ => .ok { suggestions := [], success := false, error := some "HTTP 503" }

/-- The C7 witness jitter source: `Math.random()` always drew 0. -/
def zeroRand : Nat → ℚ := fun _ => 0

/-- Witness for `fetchWithRetry_policy` at a concrete always-5xx provider,
a concrete non-retryable (HTTP 400) provider, and the zero jitter draw. -/
theorem fetchWithRetry_policy_witness :
    fetchWithRetry failingProvider zeroRand
        = ⟨.ok { suggestions := [], success := false, error := some "HTTP 503" },
           3, [backoffMs zeroRand 0, backoffMs zeroRand 1]⟩
      ∧ fetchWithRetry
          (fun _ => .ok { suggestions := [], success := false,
                          error := some "HTTP 400" }) zeroRand
        = ⟨.ok { suggestions := [], success := false, error := some "HTTP 400" },
           1, []⟩
      ∧ 1200 ≤ backoffMs zeroRand 0 + backoffMs zeroRand 1 := by
  refine ⟨?_, ?_, ?_⟩
  · exact fetchWithRetry_policy.1 failingProvider zeroRand _ _ _
      rfl rfl rfl rfl rfl (by decide) (by decide)
  · exact fetchWithRetry_policy.2.1 _ zeroRand _ rfl rfl (by decide)
  · exact (fetchWithRetry_policy.2.2 zeroRand (le_refl 0) zero_lt_one
      (le_refl 0) zero_lt_one).1

/-! ## C10: the fallback signature and its cache-eviction consequence -/

lemma buildSig_data (i : TaskSignatureInput) :
    (buildTaskSignature i).data
      = (jsTrim i.text).data
          ++ ('|' :: (i.importance.str.data
          ++ ('|' :: (i.urgency.str.data
          ++ ('|' :: (i.dueDate.getD "").data))))) := by
  simp [buildTaskSignature, String.data_append]

lemma fallbackSignature_ne_empty (p : SuggestParams) :
    fallbackSignature p ≠ "" := by
  intro h
  have hd := congrArg String.data h
  rw [fallbackSignature, buildSig_data] at hd
  have hl := congrArg List.length hd
  simp [List.length_append] at hl

lemma real_signature_ne_fallback (t : Task) (p : SuggestParams)
    (himp : t.importance = .low) (htext : t.text = p.taskText) :
    computeSignature t ≠ fallbackSignature p := by
  intro h
  have hd := congrArg String.data h
  rw [sig_data, fallbackSignature, buildSig_data, himp, htext] at hd
  have h₁ := List.append_cancel_left hd
  have h₂ := (List.cons.injEq _ _ _ _ ▸ h₁).2
  simp [ImportanceLevel.str] at h₂

/-- C10: when `params.taskSignature` is absent, `getSignatureFromParams`
uses `buildTaskSignature(taskText, importance: 'high', urgency: 'high',
dueDate: null)`; consequently a stored cache record whose signature was
computed from the task's real fields (here: low importance) mismatches the
fallback, so the lookup reports a miss and deletes the record even though
the task itself is unchanged. -/
theorem fallback_signature_forces_miss (p : SuggestParams) (t : Task)
    (record : CacheRecord) (now : Nat)
    (hsig : p.taskSignature = none)
    (htid : p.taskId = some t.id) (hne : t.id ≠ "")
    (hrid : record.taskId = t.id)
    (hrsig : record.taskSignature = computeSignature t)
    (himp : t.importance = .low)
    (htext : t.text = p.taskText) :
    getSignatureFromParams p
        = buildTaskSignature ⟨p.taskText, .high, .high, none⟩
      ∧ getCachedSuggestions p.taskId (getSignatureFromParams p) now [record]
          = (none, []) := by
  have hfb : getSignatureFromParams p = fallbackSignature p := by
    simp [getSignatureFromParams, hsig]
  constructor
  · rw [hfb]; rfl
  · rw [htid]
    have hne₂ : getSignatureFromParams p ≠ "" := by
      rw [hfb]; exact fallbackSignature_ne_empty p
    have hmis : record.taskSignature ≠ getSignatureFromParams p := by
      rw [hfb, hrsig]; exact real_signature_ne_fallback t p himp htext
    simp [getCachedSuggestions, hne, hne₂, hrid, hmis]

/-- C10 witness task: real importance is low. -/
def lowTask : Task :=
  ⟨"t1", "Write project report", false, .low, .high, none, 0, none, [], []⟩

/-- C10 witness request: same task, no precomputed signature. -/
def lowTaskParams : SuggestParams :=
  { taskText := "Write project report", taskId := some "t1" }

/-- C10 witness cache record: stores the task's real signature. -/
def lowTaskRecord : CacheRecord :=
  ⟨"t1-ai-suggestion", "t1", ["outline"], computeSignature lowTask, .active,
   0, 86400000⟩

/-- Witness for `fallback_signature_forces_miss` at concrete inputs. -/
theorem fallback_signature_forces_miss_witness :
    getSignatureFromParams lowTaskParams
        = buildTaskSignature ⟨"Write project report", .high, .high, none⟩
      ∧ getCachedSuggestions lowTaskParams.taskId
          (getSignatureFromParams lowTaskParams) 1000 [lowTaskRecord]
          = (none, []) :=
  fallback_signature_forces_miss lowTaskParams lowTask lowTaskRecord 1000
    rfl rfl (by decide) rfl rfl rfl rfl

/-! ## C8: side-effect frame of the orchestrator -/

/-- How one bucket map may change during a call: untouched, or one key
re-stored with its pruned timestamp list, or with the pruned list plus the
current timestamp appended — exactly the two outcomes of `withinLimit`. -/
def bucketEvolution (cfg : RateConfig) (now : Nat)
    (m m' : List (String × List Nat)) : Prop :=
  m' = m ∨ ∃ key,
    m' = setA m key (pruneWindow cfg now ((lookupA m key).getD []))
      ∨ m' = setA m key (pruneWindow cfg now ((lookupA m key).getD []) ++ [now])

lemma mapWithinLimit_evolution (cfg : RateConfig)
    (m : List (String × List Nat)) (key : String) (now : Nat) :
    bucketEvolution cfg now m (mapWithinLimit cfg m key now).2 := by
  right
  refine ⟨key, ?_⟩
  by_cases h : cfg.max ≤ (pruneWindow cfg now ((lookupA m key).getD [])).length
  · left
    simp [mapWithinLimit, withinLimit, h]
  · right
    simp [mapWithinLimit, withinLimit, h]

lemma checkRateLimits_frame (p : SuggestParams) (now : Nat)
    (st : ClientState) :
    (checkRateLimits p now st).2.cache = st.cache
    ∧ (checkRateLimits p now st).2.inFlight = st.inFlight
    ∧ (checkRateLimits p now st).2.cachePuts = st.cachePuts
    ∧ (checkRateLimits p now st).2.providerCalls = st.providerCalls
    ∧ bucketEvolution ratePerTask5m now st.perTask5m
        (checkRateLimits p now st).2.perTask5m
    ∧ bucketEvolution ratePerTask1h now st.perTask1h
        (checkRateLimits p now st).2.perTask1h
    ∧ bucketEvolution ratePerUser1m now st.perUser1m
        (checkRateLimits p now st).2.perUser1m
    ∧ bucketEvolution ratePerUser1h now st.perUser1h
        (checkRateLimits p now st).2.perUser1h := by
  simp only [checkRateLimits]
  split
  · exact ⟨rfl, rfl, rfl, rfl, mapWithinLimit_evolution _ _ _ _,
      Or.inl rfl, Or.inl rfl, Or.inl rfl⟩
  · split
    · exact ⟨rfl, rfl, rfl, rfl, mapWithinLimit_evolution _ _ _ _,
        mapWithinLimit_evolution _ _ _ _, Or.inl rfl, Or.inl rfl⟩
    · split
      · exact ⟨rfl, rfl, rfl, rfl, mapWithinLimit_evolution _ _ _ _,
          mapWithinLimit_evolution _ _ _ _, mapWithinLimit_evolution _ _ _ _,
          Or.inl rfl⟩
      · split
        · exact ⟨rfl, rfl, rfl, rfl, mapWithinLimit_evolution _ _ _ _,
            mapWithinLimit_evolution _ _ _ _,
            mapWithinLimit_evolution _ _ _ _,
            mapWithinLimit_evolution _ _ _ _⟩
        · exact ⟨rfl, rfl, rfl, rfl, mapWithinLimit_evolution _ _ _ _,
            mapWithinLimit_evolution _ _ _ _,
            mapWithinLimit_evolution _ _ _ _,
            mapWithinLimit_evolution _ _ _ _⟩

lemma getCached_frame (tid : Option String) (sig : String) (now : Nat)
    (cache : List CacheRecord) :
    (getCachedSuggestions tid sig now cache).2.Sublist cache
    ∧ (∀ r, (getCachedSuggestions tid sig now cache).1 = some r →
        r.fromCache = some true ∧ r.success = true) := by
  unfold getCachedSuggestions
  cases tid with
  | none => simp
  | some t =>
    by_cases he : t = "" ∨ sig = ""
    · simp [he]
    · simp only [if_neg he]
      cases hfind : cache.find? (fun r => r.taskId == t) with
      | none => simp
      | some rec =>
        by_cases hc : rec.taskSignature ≠ sig ∨ rec.expiresAt < now
        · simp only [if_pos hc]
          exact ⟨List.filter_sublist _, by intro r h; simp at h⟩
        · simp only [if_neg hc]
          exact ⟨List.Sublist.refl _, by intro r h; simp at h; simp [← h]⟩

lemma getSignatureFromParams_ne_empty (p : SuggestParams) :
    getSignatureFromParams p ≠ "" := by
  unfold getSignatureFromParams
  cases hs : p.taskSignature
  · exact fallbackSignature_ne_empty p
  case some s =>
    by_cases h : s = ""
    · simp [h, fallbackSignature_ne_empty p]
    · simp [h]

lemma saveSuggestions_wrote_iff (tid : Option String) (sig : String)
    (suggs : List String) (now : Nat) (cache : List CacheRecord)
    (hsig : sig ≠ "") :
    (saveSuggestions tid sig suggs now cache).2 = true
      ↔ ∃ t, tid = some t ∧ t ≠ "" ∧ suggs ≠ [] := by
  unfold saveSuggestions
  cases tid with
  | none => simp
  | some t =>
    by_cases hc : t = "" ∨ sig = "" ∨ suggs = []
    · simp only [if_pos hc]
      rcases hc with h | h | h <;> simp_all
    · push_neg at hc
      simp [hc.1, hsig, hc.2.2]

lemma requestEntry_frame (p : SuggestParams)
    (pend : Except String SuggestResult) (now : Nat) (st : ClientState)
    (hf : st.inFlight = []) :
    (requestEntry p pend now st).2.cachePuts = st.cachePuts
    ∧ (requestEntry p pend now st).2.cache.Sublist st.cache
    ∧ bucketEvolution ratePerTask5m now st.perTask5m
        (requestEntry p pend now st).2.perTask5m
    ∧ bucketEvolution ratePerTask1h now st.perTask1h
        (requestEntry p pend now st).2.perTask1h
    ∧ bucketEvolution ratePerUser1m now st.perUser1m
        (requestEntry p pend now st).2.perUser1m
    ∧ bucketEvolution ratePerUser1h now st.perUser1h
        (requestEntry p pend now st).2.perUser1h
    ∧ ((∃ r, (requestEntry p pend now st).1 = .done r
          ∧ (requestEntry p pend now st).2.inFlight = []
          ∧ ((r.success = true ∧ r.fromCache = some true)
              ∨ r.success = false))
        ∨ ((requestEntry p pend now st).1 = .launched (buildTaskKey p)
          ∧ (requestEntry p pend now st).2.inFlight
              = [(buildTaskKey p, pend)])) := by
  have gcf := getCached_frame p.taskId (getSignatureFromParams p) now st.cache
  rcases hre : requestEntry p pend now st with ⟨o, st'⟩
  simp only [hre]
  simp only [requestEntry] at hre
  cases hc1 : (getCachedSuggestions p.taskId (getSignatureFromParams p) now
      st.cache).1 with
  | some r =>
    simp only [hc1] at hre
    have hr := gcf.2 r hc1
    injection hre with h₁ h₂
    subst h₁
    subst h₂
    exact ⟨rfl, gcf.1, Or.inl rfl, Or.inl rfl, Or.inl rfl, Or.inl rfl,
      Or.inl ⟨r, rfl, hf, Or.inl ⟨hr.2, hr.1⟩⟩⟩
  | none =>
    simp only [hc1] at hre
    have crf := checkRateLimits_frame p now
      { st with cache := (getCachedSuggestions p.taskId
          (getSignatureFromParams p) now st.cache).2 }
    cases hrc : (checkRateLimits p now
        { st with cache := (getCachedSuggestions p.taskId
            (getSignatureFromParams p) now st.cache).2 }).1 with
    | some msg =>
      simp only [hrc] at hre
      injection hre with h₁ h₂
      subst h₁
      subst h₂
      refine ⟨crf.2.2.1, ?_, crf.2.2.2.2.1, crf.2.2.2.2.2.1,
        crf.2.2.2.2.2.2.1, crf.2.2.2.2.2.2.2,
        Or.inl ⟨rateLimitedResult msg, rfl, ?_, Or.inr rfl⟩⟩
      · rw [crf.1]
        exact gcf.1
      · rw [crf.2.1]
        exact hf
    | none =>
      have hifl : (checkRateLimits p now
          { st with cache := (getCachedSuggestions p.taskId
              (getSignatureFromParams p) now st.cache).2 }).2.inFlight
          = [] := by
        rw [crf.2.1]
        exact hf
      simp only [hrc, hifl, lookupA, List.find?] at hre
      injection hre with h₁ h₂
      subst h₁
      subst h₂
      refine ⟨crf.2.2.1, ?_, crf.2.2.2.2.1, crf.2.2.2.2.2.1,
        crf.2.2.2.2.2.2.1, crf.2.2.2.2.2.2.2,
        Or.inr ⟨rfl, by simp [setA, hifl]⟩⟩
      rw [crf.1]
      exact gcf.1

/-- C8 counterexample inputs: a request carrying no `taskId`. -/
def noIdParams : SuggestParams :=
  { taskText := "Organize the annual conference" }

/-- C8 counterexample provider: one successful call. -/
def okProvider : Nat → Except String SuggestResult :=
  fun _ => .ok { suggestions := ["book venue"], success := true }

/-- C8 counterexample: a stale cache record for task `t9`. -/
def staleRecord : CacheRecord :=
  ⟨"t9-ai-suggestion", "t9", ["old step"], "sigA", .active, 0, 86400000⟩

/-- C8 counterexample: a request for `t9` whose signature has moved on. -/
def staleParams : SuggestParams :=
  { taskText := "t", taskId := some "t9", taskSignature := some "sigB" }

/-- C8 counterexample provider: a non-retryable failure. -/
def badProvider : Nat → Except String SuggestResult :=
  fun _ => .ok { suggestions := [], success := false, error := some "HTTP 400" }

/-- C8 counterexample: the claim says every successful non-cache-hit call
performs exactly one cache write, and a failing call performs no durable
writes.  False on both counts: (a) a successful call without a `taskId`
performs zero cache writes (`saveSuggestions` skips); (b) a failing call
that finds a stale record deletes it during the cache lookup — a durable
cache modification on a failing path. -/
theorem orchestrator_frame_counterexample :
    (requestAISuggestions noIdParams okProvider zeroRand 0 emptyClientState).1
        = .ok { suggestions := ["book venue"], success := true,
                fromCache := some false }
    ∧ (requestAISuggestions noIdParams okProvider zeroRand 0
        emptyClientState).2.cachePuts = 0
    ∧ (requestAISuggestions staleParams badProvider zeroRand 1000
        { emptyClientState with cache := [staleRecord] }).1
        = .ok { suggestions := [], success := false, error := some "HTTP 400" }
    ∧ (requestAISuggestions staleParams badProvider zeroRand 1000
        { emptyClientState with cache := [staleRecord] }).2.cache = [] := by
  refine ⟨by decide, by decide, by decide, by decide⟩

/-- C8 (amended): frame of one complete `requestAISuggestions` call from a
state with no in-flight entry.  The cache-write counter rises by at most
one; it rises by exactly one iff the call fetched successfully
(`fromCache = false`) with a truthy `taskId` and a non-empty suggestion
list.  On every failing or throwing path the counter is unchanged and the
cache only shrinks (lazy eviction of one stale record during lookup is the
only durable cache change).  The in-flight map ends empty, and each rate
bucket changes only by `withinLimit`'s prune or prune-and-append on one
key. -/
theorem requestAISuggestions_frame (p : SuggestParams)
    (provider : Nat → Except String SuggestResult) (rand : Nat → ℚ)
    (now : Nat) (st : ClientState) (hf : st.inFlight = []) :
    ((requestAISuggestions p provider rand now st).2.cachePuts = st.cachePuts
      ∨ (requestAISuggestions p provider rand now st).2.cachePuts
          = st.cachePuts + 1)
    ∧ (∀ r, (requestAISuggestions p provider rand now st).1 = .ok r →
        r.success = true → r.fromCache = some false →
        ((requestAISuggestions p provider rand now st).2.cachePuts
            = st.cachePuts + 1
          ↔ ∃ tid, p.taskId = some tid ∧ tid ≠ "" ∧ r.suggestions ≠ []))
    ∧ (∀ r, (requestAISuggestions p provider rand now st).1 = .ok r →
        r.success = false →
        (requestAISuggestions p provider rand now st).2.cachePuts
            = st.cachePuts
          ∧ (requestAISuggestions p provider rand now st).2.cache.Sublist
              st.cache)
    ∧ (∀ e, (requestAISuggestions p provider rand now st).1 = .error e →
        (requestAISuggestions p provider rand now st).2.cachePuts
            = st.cachePuts
          ∧ (requestAISuggestions p provider rand now st).2.cache.Sublist
              st.cache)
    ∧ (requestAISuggestions p provider rand now st).2.inFlight = []
    ∧ bucketEvolution ratePerTask5m now st.perTask5m
        (requestAISuggestions p provider rand now st).2.perTask5m
    ∧ bucketEvolution ratePerTask1h now st.perTask1h
        (requestAISuggestions p provider rand now st).2.perTask1h
    ∧ bucketEvolution ratePerUser1m now st.perUser1m
        (requestAISuggestions p provider rand now st).2.perUser1m
    ∧ bucketEvolution ratePerUser1h now st.perUser1h
        (requestAISuggestions p provider rand now st).2.perUser1h := by
  have ef := requestEntry_frame p
    (settleValue (fetchWithRetry provider rand).result) now st hf
  obtain ⟨hcp, hsub, he1, he2, he3, he4, hout⟩ := ef
  rcases hq : requestAISuggestions p provider rand now st with ⟨res, stf⟩
  simp only [hq]
  simp only [requestAISuggestions] at hq
  rcases hout with ⟨r, hdone, hifl, hshape⟩ | ⟨hlaunch, hifl⟩
  · -- entry returned without launching
    have hpair : requestEntry p
        (settleValue (fetchWithRetry provider rand).result) now st
        = (.done r, (requestEntry p
            (settleValue (fetchWithRetry provider rand).result) now st).2) :=
      Prod.ext hdone rfl
    rw [hpair] at hq
    injection hq with h₁ h₂
    subst h₁
    subst h₂
    refine ⟨Or.inl hcp, ?_, ?_, ?_, hifl, he1, he2, he3, he4⟩
    · intro r' hr' hs hc
      injection hr' with hr'
      subst hr'
      rcases hshape with ⟨_, hfc⟩ | hsf
      · rw [hfc] at hc
        simp at hc
      · rw [hsf] at hs
        simp at hs
    · intro r' hr' _
      exact ⟨hcp, hsub⟩
    · intro e he
      simp at he
  · -- entry launched the provider call
    have hpair : requestEntry p
        (settleValue (fetchWithRetry provider rand).result) now st
        = (.launched (buildTaskKey p), (requestEntry p
            (settleValue (fetchWithRetry provider rand).result) now st).2) :=
      Prod.ext hlaunch rfl
    rw [hpair] at hq
    have hrm : removeInFlight (buildTaskKey p)
        (requestEntry p (settleValue (fetchWithRetry provider rand).result)
          now st).2.inFlight = [] := by
      rw [hifl]
      simp [removeInFlight]
    cases htr : (fetchWithRetry provider rand).result with
    | error e =>
      rw [htr] at hcp hsub he1 he2 he3 he4 hrm
      simp only [htr, requestSettle] at hq
      injection hq with h₁ h₂
      subst h₁
      subst h₂
      refine ⟨Or.inl hcp, ?_, ?_, ?_, hrm, he1, he2, he3, he4⟩
      · intro r' hr' _ _
        simp at hr'
      · intro r' hr' _
        simp at hr'
      · intro e' he'
        exact ⟨hcp, hsub⟩
    | ok r =>
      cases hs : r.success with
      | false =>
        rw [htr] at hcp hsub he1 he2 he3 he4 hrm
        simp only [htr, requestSettle, hs, Bool.false_eq_true, if_neg,
          not_false_eq_true] at hq
        injection hq with h₁ h₂
        subst h₁
        subst h₂
        refine ⟨Or.inl hcp, ?_, ?_, ?_, hrm, he1, he2, he3, he4⟩
        · intro r' hr' hs' _
          injection hr' with hr'
          subst hr'
          rw [hs] at hs'
          simp at hs'
        · intro r' hr' _
          exact ⟨hcp, hsub⟩
        · intro e' he'
          simp at he'
      | true =>
        rw [htr] at hcp hsub he1 he2 he3 he4 hrm
        simp only [htr, requestSettle, hs, if_pos] at hq
        injection hq with h₁ h₂
        subst h₁
        subst h₂
        have hwiff := saveSuggestions_wrote_iff p.taskId
          (getSignatureFromParams p) r.suggestions now
          (requestEntry p (settleValue (Except.ok r))
            now st).2.cache (getSignatureFromParams_ne_empty p)
        refine ⟨?_, ?_, ?_, ?_, hrm, he1, he2, he3, he4⟩
        · cases hw : (saveSuggestions p.taskId (getSignatureFromParams p)
              r.suggestions now (requestEntry p
                (settleValue (Except.ok r))
                now st).2.cache).2
          · left
            simp [hw, hcp]
          · right
            simp [hw, hcp]
        · intro r' hr' _ _
          injection hr' with hr'
          subst hr'
          rw [hwiff.symm]
          cases hw : (saveSuggestions p.taskId (getSignatureFromParams p)
              r.suggestions now (requestEntry p
                (settleValue (Except.ok r))
                now st).2.cache).2
          · simp [hw, hcp]
          · simp [hw, hcp]
        · intro r' hr' hs'
          injection hr' with hr'
          subst hr'
          simp at hs'
        · intro e' he'
          simp at he'

/-- Witness for `requestAISuggestions_frame` at the concrete no-taskId
success call from a fresh state. -/
theorem requestAISuggestions_frame_witness :
    ((requestAISuggestions noIdParams okProvider zeroRand 0
        emptyClientState).2.cachePuts = emptyClientState.cachePuts
      ∨ (requestAISuggestions noIdParams okProvider zeroRand 0
        emptyClientState).2.cachePuts = emptyClientState.cachePuts + 1)
    ∧ (requestAISuggestions noIdParams okProvider zeroRand 0
        emptyClientState).2.inFlight = [] :=
  ⟨(requestAISuggestions_frame noIdParams okProvider zeroRand 0
      emptyClientState rfl).1,
   (requestAISuggestions_frame noIdParams okProvider zeroRand 0
      emptyClientState rfl).2.2.2.2.1⟩

/-! ## State inference engine
(`src/lib/services/stateInferenceService.ts`) -/

/-- `InferredStateType` from `src/types/index.ts`, in the insertion order
of the `stateScores` object literal of `determineState` (which is the
`Object.entries` iteration order). -/
inductive InferredStateType
  | energized
  | okay
  | low
  | tired
  | avoidant
  | uncertain
  | disengaged
  | needs_breakdown
deriving DecidableEq, Repr

/-- The signal types constructed by `generateSignals` (the TypeScript
field is `type: string`; these five are the only values the service
creates, and `determineState` is module-private with `generateSignals` as
its only producer). -/
inductive SignalType
  | completion_rate
  | low_completion_rate
  | procrastination
  | late_night_usage
  | needs_breakdown
deriving DecidableEq, Repr

/-- Signal weight labels (`'high' | 'medium' | 'low'`). -/
inductive SignalWeight
  | high
  | medium
  | low
deriving DecidableEq, Repr

/-- `SIGNAL_WEIGHTS` from `stateInferenceService.ts`. -/
def SignalWeight.val : SignalWeight → ℚ
  | .high => 3
  | .medium => 2
  | .low => 1

/-- `BehavioralSignal` (the fields `determineState` reads; `value` and
`observedAt` are carried along in the source but never inspected). -/
structure BehavioralSignal where
  type : SignalType
  weight : SignalWeight
deriving DecidableEq, Repr

/-- The `switch (signal.type)` of `determineState`: each signal type feeds
exactly one state's score. -/
def signalTarget : SignalType → InferredStateType
  | .completion_rate => .energized
  | .low_completion_rate => .low
  | .procrastination => .avoidant
  | .late_night_usage => .tired
  | .needs_breakdown => .needs_breakdown

/-- The initial `stateScores` record: `okay` starts at the base 0.5,
every other state at 0. -/
def baseScore : InferredStateType → ℚ :=
  fun s => if s = .okay then 1 / 2 else 0

/-- One iteration of the scoring loop. -/
def addSignal (f : InferredStateType → ℚ) (sig : BehavioralSignal) :
    InferredStateType → ℚ :=
  fun s => if s = signalTarget sig.type then f s + sig.weight.val else f s

/-- The score table after folding all signals. -/
def stateScores (signals : List BehavioralSignal) : InferredStateType → ℚ :=
  signals.foldl addSignal baseScore

/-- `Object.entries(stateScores)` iteration order. -/
def stateOrder : List InferredStateType :=
  [.energized, .okay, .low, .tired, .avoidant, .uncertain, .disengaged,
   .needs_breakdown]

/-- The `for (const [state, score] of Object.entries(...))` loop of
`determineState`: running maximum starting at `(0, 'okay')`, updated only
on a strict increase. -/
def pickPrimary (f : InferredStateType → ℚ) : ℚ × InferredStateType :=
  stateOrder.foldl (fun acc s => if f s > acc.1 then (f s, s) else acc)
    (0, .okay)

/-- `determineState` from `stateInferenceService.ts`. -/
def determineState (signals : List BehavioralSignal) :
    InferredStateType × ℚ :=
  if signals = [] then (.okay, 1 / 2)
  else
    let f := stateScores signals
    let pick := pickPrimary f
    let maxPossible : ℚ := (signals.length : ℚ) * 3
    let confidence :=
      if maxPossible > 0 then min (pick.1 / maxPossible) 1 else 1 / 2
    (pick.2, confidence)

/-- The maximum state score as folded by the loop. -/
def foldMax (f : InferredStateType → ℚ) (l : List InferredStateType)
    (m : ℚ) : ℚ :=
  l.foldl (fun m s => max m (f s)) m

/-- The overall maximum score (seeded with the loop's initial 0). -/
def maxStateScore (f : InferredStateType → ℚ) : ℚ :=
  foldMax f stateOrder 0

lemma le_foldMax (f : InferredStateType → ℚ) :
    ∀ (l : List InferredStateType) (m : ℚ), m ≤ foldMax f l m
  | [], m => le_refl m
  | s :: l, m => le_trans (le_max_left m (f s)) (le_foldMax f l _)

lemma foldMax_mem (f : InferredStateType → ℚ) :
    ∀ (l : List InferredStateType) (m : ℚ) (x : InferredStateType),
      x ∈ l → f x ≤ foldMax f l m
  | s :: l, m, x, hx => by
    rcases List.mem_cons.mp hx with h | h
    · subst h
      exact le_trans (le_max_right m (f x)) (le_foldMax f l _)
    · exact foldMax_mem f l _ x h

lemma foldMax_seed_eq (f : InferredStateType → ℚ) :
    ∀ (l : List InferredStateType) (m x : ℚ), x ≤ m →
      foldMax f l (max m x) = foldMax f l m
  | _, _, _, h => by rw [max_eq_left h]

lemma fold_stay (f : InferredStateType → ℚ) :
    ∀ (l : List InferredStateType) (m : ℚ) (p : InferredStateType),
      (∀ x ∈ l, f x ≤ m) →
      l.foldl (fun acc s => if f s > acc.1 then (f s, s) else acc) (m, p)
        = (m, p)
  | [], m, p, _ => rfl
  | s :: l, m, p, hall => by
    have hs : ¬ (f s > m) := not_lt.mpr (hall s (by simp))
    simp only [List.foldl_cons, if_neg hs]
    exact fold_stay f l m p (fun x hx => hall x (by simp [hx]))

lemma foldMax_cases (f : InferredStateType → ℚ) :
    ∀ (l : List InferredStateType) (m : ℚ),
      foldMax f l m = m ∨ ∃ x ∈ l, foldMax f l m = f x
  | [], m => Or.inl rfl
  | s :: l, m => by
    rcases foldMax_cases f l (max m (f s)) with hc | ⟨x, hx, hc⟩
    · rcases le_total m (f s) with hle | hle
      · right
        exact ⟨s, by simp, by simpa [foldMax, max_eq_right hle] using hc⟩
      · left
        simpa [foldMax, max_eq_left hle] using hc
    · right
      exact ⟨x, by simp [hx], hc⟩

lemma fold_argmax (f : InferredStateType → ℚ) :
    ∀ (l : List InferredStateType) (m₀ : ℚ) (p₀ : InferredStateType),
      m₀ < foldMax f l m₀ →
      l.foldl (fun acc s => if f s > acc.1 then (f s, s) else acc) (m₀, p₀)
        = (foldMax f l m₀,
           (l.find? (fun s => f s = foldMax f l m₀)).getD p₀)
  | [], m₀, p₀, h => absurd h (lt_irrefl m₀)
  | s :: l, m₀, p₀, h => by
    by_cases hfs : f s > m₀
    · have hmax : max m₀ (f s) = f s := max_eq_right (le_of_lt hfs)
      have hM : foldMax f (s :: l) m₀ = foldMax f l (f s) := by
        simp only [foldMax, List.foldl_cons]
        rw [hmax]
      by_cases hrest : f s < foldMax f l (f s)
      · have ih := fold_argmax f l (f s) s hrest
        simp only [List.foldl_cons, if_pos hfs, ih, hM]
        have hne : ¬ (f s = foldMax f l (f s)) := ne_of_lt hrest
        rw [List.find?_cons_of_neg _ (by simpa using hne)]
        have hsome : (l.find? (fun x => f x = foldMax f l (f s))).isSome := by
          rcases foldMax_cases f l (f s) with hc | ⟨x, hx, hc⟩
          · exact absurd hc.symm hne
          · exact List.find?_isSome.mpr ⟨x, hx, by simpa using hc.symm⟩
        obtain ⟨y, hy⟩ := Option.isSome_iff_exists.mp hsome
        rw [hy]
        rfl
      · have heq : foldMax f l (f s) = f s :=
          le_antisymm (not_lt.mp hrest) (le_foldMax f l (f s))
        have hall : ∀ x ∈ l, f x ≤ f s := by
          intro x hx
          exact le_trans (foldMax_mem f l (f s) x hx) (le_of_eq heq)
        simp only [List.foldl_cons, if_pos hfs]
        rw [fold_stay f l (f s) s hall, hM, heq]
        rw [List.find?_cons_of_pos _ (by simp)]
        rfl
    · have hle : f s ≤ m₀ := not_lt.mp hfs
      have hM : foldMax f (s :: l) m₀ = foldMax f l m₀ := by
        simp only [foldMax, List.foldl_cons]
        rw [max_eq_left hle]
      rw [hM] at h
      have ih := fold_argmax f l m₀ p₀ h
      simp only [List.foldl_cons, if_neg hfs, ih, hM]
      have hne : ¬ (f s = foldMax f l m₀) :=
        ne_of_lt (lt_of_le_of_lt hle h)
      rw [List.find?_cons_of_neg _ (by simpa using hne)]

lemma stateScores_decomp (s : InferredStateType) :
    ∀ (signals : List BehavioralSignal) (f₀ : InferredStateType → ℚ),
      (signals.foldl addSignal f₀) s
        = f₀ s + ((signals.filter (fun g => signalTarget g.type = s)).map
            (fun g => g.weight.val)).sum
  | [], f₀ => by simp
  | g :: gs, f₀ => by
    have ih := stateScores_decomp s gs (addSignal f₀ g)
    by_cases hg : signalTarget g.type = s
    · simp only [List.foldl_cons, ih, List.filter_cons,
        decide_eq_true_eq, if_pos hg, List.map_cons, List.sum_cons,
        addSignal, if_pos hg.symm]
      ring
    · have hg' : ¬ (s = signalTarget g.type) := fun hh => hg hh.symm
      simp only [List.foldl_cons, ih, List.filter_cons,
        decide_eq_true_eq, if_neg hg, addSignal, if_neg hg']

/-- C9: `determineState([])` returns `(okay, 0.5)`; `okay` starts from the
base score 0.5 and every signal adds its numeric weight
(high=3, medium=2, low=1) to exactly the one state its type targets; on a
non-empty signal list the winner is the first state in enumeration order
whose score equals the maximum score, and the confidence equals
`maxScore / (signalCount × 3)` clamped to `[0, 1]`. -/
theorem determineState_spec :
    determineState [] = (.okay, 1 / 2)
    ∧ baseScore .okay = 1 / 2
    ∧ (∀ s, s ≠ .okay → baseScore s = 0)
    ∧ (SignalWeight.val .high = 3 ∧ SignalWeight.val .medium = 2
        ∧ SignalWeight.val .low = 1)
    ∧ (∀ (signals : List BehavioralSignal) (s : InferredStateType),
        stateScores signals s
          = baseScore s
            + ((signals.filter (fun g => signalTarget g.type = s)).map
                (fun g => g.weight.val)).sum)
    ∧ (∀ signals : List BehavioralSignal, signals ≠ [] →
        (determineState signals).1
            = ((stateOrder.find? (fun s =>
                  stateScores signals s
                    = maxStateScore (stateScores signals))).getD .okay)
          ∧ (determineState signals).2
              = min (maxStateScore (stateScores signals)
                  / ((signals.length : ℚ) * 3)) 1
          ∧ 0 ≤ (determineState signals).2
          ∧ (determineState signals).2 ≤ 1) := by
  refine ⟨rfl, rfl, ?_, ⟨rfl, rfl, rfl⟩, ?_, ?_⟩
  · intro s hs
    simp [baseScore, hs]
  · intro signals s
    exact stateScores_decomp s signals baseScore
  · intro signals hne
    have hsum : 0 ≤ ((signals.filter
        (fun g => signalTarget g.type = InferredStateType.okay)).map
          (fun g => g.weight.val)).sum := by
      apply List.sum_nonneg
      intro x hx
      obtain ⟨g, _, hg⟩ := List.mem_map.mp hx
      rw [← hg]
      cases g.weight <;> norm_num [SignalWeight.val]
    have hok : (1 : ℚ) / 2 ≤ stateScores signals .okay := by
      simp only [stateScores]
      rw [stateScores_decomp .okay signals baseScore]
      have hb : baseScore .okay = 1 / 2 := rfl
      rw [hb]
      linarith
    have hmem : stateScores signals .okay
        ≤ maxStateScore (stateScores signals) :=
      foldMax_mem (stateScores signals) stateOrder 0 .okay (by simp [stateOrder])
    have hpos : (0 : ℚ) < maxStateScore (stateScores signals) :=
      lt_of_lt_of_le (by norm_num) (le_trans hok hmem)
    have hpick : pickPrimary (stateScores signals)
        = (maxStateScore (stateScores signals),
           (stateOrder.find? (fun s =>
              stateScores signals s
                = maxStateScore (stateScores signals))).getD .okay) := by
      rw [pickPrimary]
      exact fold_argmax (stateScores signals) stateOrder 0 .okay hpos
    have hlen : (0 : ℚ) < (signals.length : ℚ) * 3 := by
      have h₁ : 0 < signals.length := List.length_pos.mpr hne
      have h₂ : (0 : ℚ) < (signals.length : ℚ) := by exact_mod_cast h₁
      linarith
    have hval : determineState signals
        = ((pickPrimary (stateScores signals)).2,
           min ((pickPrimary (stateScores signals)).1
              / ((signals.length : ℚ) * 3)) 1) := by
      simp only [determineState, if_neg hne, if_pos hlen]
    rw [hval, hpick]
    refine ⟨rfl, rfl, ?_, min_le_right _ _⟩
    exact le_min (le_of_lt (div_pos hpos hlen)) zero_le_one

/-- Witness signals for `determineState_spec`: one high-weight
procrastination signal. -/
def avoidSignals : List BehavioralSignal := [⟨.procrastination, .high⟩]

/-- Witness for `determineState_spec` at the concrete one-signal list. -/
theorem determineState_spec_witness :
    (determineState avoidSignals).1
        = ((stateOrder.find? (fun s =>
            stateScores avoidSignals s
              = maxStateScore (stateScores avoidSignals))).getD .okay)
      ∧ 0 ≤ (determineState avoidSignals).2
      ∧ (determineState avoidSignals).2 ≤ 1 :=
  ⟨(determineState_spec.2.2.2.2.2 avoidSignals (by decide)).1,
   (determineState_spec.2.2.2.2.2 avoidSignals (by decide)).2.2.1,
   (determineState_spec.2.2.2.2.2 avoidSignals (by decide)).2.2.2⟩

/-! ## Nudge detector (`src/lib/services/nudgeService.ts`) -/

/-- `NudgeType` from `src/types/index.ts`. -/
inductive NudgeType
  | overdue
  | needs_breakdown
  | long_pending
  | repeatedly_postponed
deriving DecidableEq, Repr

/-- The string value of a nudge type (used in cooldown keys). -/
def NudgeType.str : NudgeType → String
  | .overdue => "overdue"
  | .needs_breakdown => "needs_breakdown"
  | .long_pending => "long_pending"
  | .repeatedly_postponed => "repeatedly_postponed"

/-- `NUDGE_PRIORITY` from `nudgeService.ts` (lower = more urgent). -/
def nudgePriority : NudgeType → Nat
  | .overdue => 1
  | .repeatedly_postponed => 2
  | .long_pending => 3
  | .needs_breakdown => 99

/-- `TaskNudge` (the fields the detector writes and the quota reads;
`dismissedAt` and `cooldownUntil` are always `null` at detection time). -/
structure TaskNudge where
  type : NudgeType
  taskId : String
  priority : Nat
  showBadge : Bool
  detectedAt : Nat
deriving DecidableEq, Repr

/-- `isTaskOverdue` from `nudgeService.ts`: incomplete, has a due date,
and `isOverdue(dueDate)` — the date utility parses the `YYYY-MM-DD` string
to a local day and compares it with the start of today.  `parseDay` stands
for that parse; `today` is today's day ordinal. -/
def isTaskOverdue (parseDay : String → Nat) (today : Nat) (t : Task) :
    Bool :=
  match t.dueDate with
  | none => false
  | some d => if t.completed then false else decide (parseDay d < today)

/-- `taskNeedsBreakdown` from `nudgeService.ts`: incomplete, no subtasks,
no existing AI suggestions, text longer than 50 characters. -/
def taskNeedsBreakdown (t : Task) : Bool :=
  if t.completed then false
  else if 0 < t.subTasks.length then false
  else if 0 < t.aiSuggestions.length then false
  else decide (50 < t.text.length)

/-- `detectTaskNudges` from `nudgeService.ts`: the overdue nudge (badge)
and the needs-breakdown nudge (no badge); `long_pending` detection is
commented out in the source and `repeatedly_postponed` is never
produced. -/
def detectTaskNudges (parseDay : String → Nat) (today now : Nat)
    (t : Task) : List TaskNudge :=
  (if isTaskOverdue parseDay today t then
    [⟨.overdue, t.id, nudgePriority .overdue, true, now⟩]
  else [])
  ++ (if taskNeedsBreakdown t then
    [⟨.needs_breakdown, t.id, nudgePriority .needs_breakdown, false, now⟩]
  else [])

/-- `getCooldownKey` from `nudgeService.ts`. -/
def cooldownKey (taskId : String) (ty : NudgeType) : String :=
  taskId ++ ":" ++ ty.str

/-- `isOnCooldown` from `nudgeService.ts`: an entry suppresses the nudge
iff its `until` timestamp is still in the future (an expired entry is also
lazily deleted from the persisted map, which does not affect the returned
nudges). -/
def isOnCooldown (taskId : String) (ty : NudgeType)
    (cooldowns : List (String × Nat)) (now : Nat) : Bool :=
  match lookupA cooldowns (cooldownKey taskId ty) with
  | none => false
  | some u => decide (now < u)

/-- The collection loop of `detectAllNudges`: skip completed tasks, filter
each task's nudges by cooldown, and record only tasks with at least one
surviving nudge (in task-list order, like the `Map` insertion order). -/
def collectNudges (parseDay : String → Nat) (today now : Nat)
    (cooldowns : List (String × Nat)) : List Task →
    List (String × List TaskNudge)
  | [] => []
  | t :: ts =>
    if t.completed then collectNudges parseDay today now cooldowns ts
    else
      let ns := (detectTaskNudges parseDay today now t).filter
        (fun n => !isOnCooldown t.id n.type cooldowns now)
      if ns = [] then collectNudges parseDay today now cooldowns ts
      else (t.id, ns) :: collectNudges parseDay today now cooldowns ts

/-- The pooled badge candidates (`allNudges` in the source): every
surviving nudge with `showBadge`, in task-list order. -/
def badgeNudges (entries : List (String × List TaskNudge)) :
    List TaskNudge :=
  entries.flatMap (fun q => q.2.filter (fun n => n.showBadge))

/-- Stable insertion placing an element before later-coming equals. -/
def insertByPriority (x : TaskNudge) : List TaskNudge → List TaskNudge
  | [] => [x]
  | m :: ms =>
    if m.priority < x.priority then m :: insertByPriority x ms
    else x :: m :: ms

/-- The source's `allNudges.sort((a, b) => a.priority - b.priority)`:
JavaScript sort is stable (ES2019), and a stable sort by a total preorder
is extensionally unique, so stable insertion sort models it exactly. -/
def sortByPriority : List TaskNudge → List TaskNudge
  | [] => []
  | x :: xs => insertByPriority x (sortByPriority xs)

/-- Set `showBadge` to false (the quota loop's mutation flips `true`
badges off and leaves `false` ones untouched — the same result). -/
def unbadge (n : TaskNudge) : TaskNudge := { n with showBadge := false }

/-- Suppress all badges of one task's entry. -/
def markEntry (q : String × List TaskNudge) : String × List TaskNudge :=
  (q.1, q.2.map unbadge)

/-- The quota loop: entries whose task id is outside the badge allowance
lose their badges; the nudge objects themselves all remain. -/
def markEntries (entries : List (String × List TaskNudge))
    (ids : List String) : List (String × List TaskNudge) :=
  entries.map (fun q => if q.1 ∈ ids then q else markEntry q)

/-- The badge-quota step of `detectAllNudges`: when the badge pool exceeds
`maxBadges`, sort it by priority (stably), keep the first `maxBadges`
task ids, and hide every other task's badges. -/
def applyQuota (entries : List (String × List TaskNudge))
    (maxBadges : Nat) : List (String × List TaskNudge) :=
  let all := badgeNudges entries
  if maxBadges < all.length then
    markEntries entries
      (((sortByPriority all).take maxBadges).map (fun n => n.taskId))
  else entries

/-- `detectAllNudges` from `nudgeService.ts` (default `maxBadges = 3`). -/
def detectAllNudges (parseDay : String → Nat) (today now : Nat)
    (cooldowns : List (String × Nat)) (tasks : List Task)
    (maxBadges : Nat := 3) : List (String × List TaskNudge) :=
  applyQuota (collectNudges parseDay today now cooldowns tasks) maxBadges

/-! ### Badge-quota lemmas -/

lemma detect_mem {parseDay : String → Nat} {today now : Nat} {t : Task}
    {n : TaskNudge} (h : n ∈ detectTaskNudges parseDay today now t) :
    n = ⟨.overdue, t.id, 1, true, now⟩
      ∨ n = ⟨.needs_breakdown, t.id, 99, false, now⟩ := by
  unfold detectTaskNudges at h
  rcases List.mem_append.mp h with h | h
  · by_cases hb : isTaskOverdue parseDay today t
    · simp [hb, nudgePriority] at h
      exact Or.inl h
    · simp [hb] at h
  · by_cases hb : taskNeedsBreakdown t
    · simp [hb, nudgePriority] at h
      exact Or.inr h
    · simp [hb] at h

lemma collect_shape (parseDay : String → Nat) (today now : Nat)
    (cooldowns : List (String × Nat)) :
    ∀ tasks, ∀ q ∈ collectNudges parseDay today now cooldowns tasks,
      (∀ n ∈ q.2, n.taskId = q.1)
      ∧ (q.2.filter (fun n => n.showBadge)).length ≤ 1
      ∧ (∀ n ∈ q.2.filter (fun n => n.showBadge),
          n.priority = 1 ∧ n.showBadge = true) := by
  intro tasks
  induction tasks with
  | nil =>
    intro q hq
    simp [collectNudges] at hq
  | cons t ts ih =>
    intro q hq
    by_cases hc : t.completed
    · rw [collectNudges, if_pos hc] at hq
      exact ih q hq
    · rw [collectNudges, if_neg hc] at hq
      by_cases hns : (detectTaskNudges parseDay today now t).filter
          (fun n => !isOnCooldown t.id n.type cooldowns now) = []
      · rw [if_pos hns] at hq
        exact ih q hq
      · rw [if_neg hns] at hq
        rcases List.mem_cons.mp hq with hq | hq
        · subst hq
          refine ⟨?_, ?_, ?_⟩
          · intro n hn
            have hn' := (List.mem_filter.mp hn).1
            rcases detect_mem hn' with h | h <;> rw [h]
          · have hsub : ((detectTaskNudges parseDay today now t).filter
                (fun n => !isOnCooldown t.id n.type cooldowns now)).filter
                  (fun n => n.showBadge)
                |>.Sublist ((detectTaskNudges parseDay today now t).filter
                  (fun n => n.showBadge)) :=
              List.Sublist.filter _ (List.filter_sublist _)
            have hlen : ((detectTaskNudges parseDay today now t).filter
                (fun n => n.showBadge)).length ≤ 1 := by
              by_cases h1 : isTaskOverdue parseDay today t <;>
                by_cases h2 : taskNeedsBreakdown t <;>
                  simp [detectTaskNudges, h1, h2]
            exact le_trans hsub.length_le hlen
          · intro n hn
            have hn₁ := (List.mem_filter.mp hn).1
            have hn₂ := (List.mem_filter.mp hn).2
            have hn₃ := (List.mem_filter.mp hn₁).1
            rcases detect_mem hn₃ with h | h
            · rw [h]
              exact ⟨rfl, rfl⟩
            · rw [h] at hn₂
              simp at hn₂
        · exact ih q hq

lemma collect_ids_sublist (parseDay : String → Nat) (today now : Nat)
    (cooldowns : List (String × Nat)) :
    ∀ tasks : List Task,
      ((collectNudges parseDay today now cooldowns tasks).map
        Prod.fst).Sublist (tasks.map Task.id)
  | [] => by simp [collectNudges]
  | t :: ts => by
    by_cases hc : t.completed
    · rw [collectNudges, if_pos hc]
      exact (collect_ids_sublist parseDay today now cooldowns ts).cons _
    · rw [collectNudges, if_neg hc]
      by_cases hns : (detectTaskNudges parseDay today now t).filter
          (fun n => !isOnCooldown t.id n.type cooldowns now) = []
      · rw [if_pos hns]
        exact (collect_ids_sublist parseDay today now cooldowns ts).cons _
      · rw [if_neg hns]
        simp only [List.map_cons]
        exact (collect_ids_sublist parseDay today now cooldowns ts).cons₂ _

lemma badge_ids_sublist :
    ∀ entries : List (String × List TaskNudge),
      (∀ q ∈ entries, (∀ n ∈ q.2, n.taskId = q.1)
        ∧ (q.2.filter (fun n => n.showBadge)).length ≤ 1) →
      ((badgeNudges entries).map (fun n => n.taskId)).Sublist
        (entries.map Prod.fst)
  | [], _ => by simp [badgeNudges]
  | q :: rest, hshape => by
    have hq := hshape q (by simp)
    have ihs := badge_ids_sublist rest
      (fun q' h => hshape q' (List.mem_cons_of_mem _ h))
    have hcons : badgeNudges (q :: rest)
        = q.2.filter (fun n => n.showBadge) ++ badgeNudges rest := rfl
    rw [hcons, List.map_append]
    rcases hbs : q.2.filter (fun n => n.showBadge) with _ | ⟨b, bs'⟩
    · rw [hbs]
      simpa using ihs.cons q.1
    · have hb1 : bs' = [] := by
        have := hq.2
        rw [hbs] at this
        simpa using this
      subst hb1
      have hbid : b.taskId = q.1 :=
        hq.1 b (List.mem_of_mem_filter (hbs ▸ List.mem_cons_self b []))
      rw [hbs]
      simp only [List.map_cons, List.map_nil, List.singleton_append, hbid]
      exact ihs.cons₂ q.1

lemma badge_priority_one :
    ∀ entries : List (String × List TaskNudge),
      (∀ q ∈ entries, ∀ n ∈ q.2.filter (fun n => n.showBadge),
        n.priority = 1 ∧ n.showBadge = true) →
      ∀ n ∈ badgeNudges entries, n.priority = 1 ∧ n.showBadge = true := by
  intro entries hshape n hn
  obtain ⟨q, hq, hnq⟩ := List.mem_flatMap.mp hn
  exact hshape q hq n hnq

lemma insert_all_eq (x : TaskNudge) (l : List TaskNudge)
    (hx : x.priority = 1) (hl : ∀ n ∈ l, n.priority = 1) :
    insertByPriority x l = x :: l := by
  cases l with
  | nil => rfl
  | cons m ms =>
    have hm : m.priority = 1 := hl m (by simp)
    rw [insertByPriority, if_neg (by omega)]

lemma sort_all_eq :
    ∀ l : List TaskNudge, (∀ n ∈ l, n.priority = 1) → sortByPriority l = l
  | [], _ => rfl
  | x :: xs, hl => by
    rw [sortByPriority, sort_all_eq xs (fun n h => hl n (by simp [h]))]
    exact insert_all_eq x xs (hl x (by simp)) (fun n h => hl n (by simp [h]))

lemma markEntry_filter (q : String × List TaskNudge) :
    (markEntry q).2.filter (fun n => n.showBadge) = [] := by
  simp [markEntry, List.filter_map, unbadge, Function.comp_def]

lemma markEntry_any (q : String × List TaskNudge) :
    (markEntry q).2.any (fun n => n.showBadge) = false := by
  simp [markEntry, List.any_map, unbadge, Function.comp_def]

lemma markEntries_cons_irrelevant (rest : List (String × List TaskNudge))
    (id : String) (ids : List String) (hid : id ∉ rest.map Prod.fst) :
    markEntries rest (id :: ids) = markEntries rest ids := by
  unfold markEntries
  apply List.map_congr_left
  intro q hq
  have hne : q.1 ≠ id := by
    intro h
    exact hid (h ▸ List.mem_map_of_mem Prod.fst hq)
  simp [List.mem_cons, hne]

lemma quota_mark :
    ∀ (entries : List (String × List TaskNudge)) (k : Nat),
      ((entries.map Prod.fst).Nodup) →
      (∀ q ∈ entries, (∀ n ∈ q.2, n.taskId = q.1)
        ∧ (q.2.filter (fun n => n.showBadge)).length ≤ 1) →
      badgeNudges (markEntries entries
          (((badgeNudges entries).take k).map (fun n => n.taskId)))
        = (badgeNudges entries).take k
      ∧ ((markEntries entries
          (((badgeNudges entries).take k).map (fun n => n.taskId))).filter
            (fun q => q.2.any (fun n => n.showBadge))).length
        = ((badgeNudges entries).take k).length
  | [], k, _, _ => by simp [badgeNudges, markEntries]
  | q :: rest, k, hnd, hshape => by
    have hq := hshape q (by simp)
    rw [List.map_cons] at hnd
    have hnd' := List.nodup_cons.mp hnd
    have hrest_shape : ∀ q' ∈ rest, (∀ n ∈ q'.2, n.taskId = q'.1)
        ∧ (q'.2.filter (fun n => n.showBadge)).length ≤ 1 :=
      fun q' h => hshape q' (List.mem_cons_of_mem _ h)
    have hcons : badgeNudges (q :: rest)
        = q.2.filter (fun n => n.showBadge) ++ badgeNudges rest := rfl
    rcases hbs : q.2.filter (fun n => n.showBadge) with _ | ⟨b, bs'⟩
    · -- the head entry has no badge nudge
      have hall : badgeNudges (q :: rest) = badgeNudges rest := by
        rw [hcons, hbs]
        rfl
      have ih := quota_mark rest k hnd'.2 hrest_shape
      rw [hall]
      have hme : markEntries (q :: rest)
          (((badgeNudges rest).take k).map (fun n => n.taskId))
          = (if q.1 ∈ ((badgeNudges rest).take k).map (fun n => n.taskId)
              then q else markEntry q)
            :: markEntries rest
              (((badgeNudges rest).take k).map (fun n => n.taskId)) := rfl
      rw [hme]
      by_cases hmem : q.1 ∈ ((badgeNudges rest).take k).map
          (fun n => n.taskId)
      · rw [if_pos hmem]
        constructor
        · have : badgeNudges (q :: markEntries rest
              (((badgeNudges rest).take k).map (fun n => n.taskId)))
              = q.2.filter (fun n => n.showBadge)
                ++ badgeNudges (markEntries rest
                  (((badgeNudges rest).take k).map (fun n => n.taskId))) :=
            rfl
          rw [this, hbs, ih.1]
          rfl
        · have hany : q.2.any (fun n => n.showBadge) = false := by
            rw [List.any_eq_false]
            intro n hn
            intro hsb
            have : n ∈ q.2.filter (fun n => n.showBadge) :=
              List.mem_filter.mpr ⟨hn, hsb⟩
            rw [hbs] at this
            simp at this
          rw [List.filter_cons, hany]
          simp only [Bool.false_eq_true, if_neg, ite_false]
          exact ih.2
      · rw [if_neg hmem]
        constructor
        · have : badgeNudges (markEntry q :: markEntries rest
              (((badgeNudges rest).take k).map (fun n => n.taskId)))
              = (markEntry q).2.filter (fun n => n.showBadge)
                ++ badgeNudges (markEntries rest
                  (((badgeNudges rest).take k).map (fun n => n.taskId))) :=
            rfl
          rw [this, markEntry_filter, ih.1]
          rfl
        · rw [List.filter_cons, markEntry_any]
          simp only [Bool.false_eq_true, if_neg, ite_false]
          exact ih.2
    · -- the head entry has exactly one badge nudge b
      have hb1 : bs' = [] := by
        have := hq.2
        rw [hbs] at this
        simpa using this
      subst hb1
      have hbid : b.taskId = q.1 :=
        hq.1 b (List.mem_of_mem_filter (hbs ▸ List.mem_cons_self b []))
      have hbq : b ∈ q.2 :=
        List.mem_of_mem_filter (hbs ▸ List.mem_cons_self b [])
      have hbsb : b.showBadge = true :=
        (List.mem_filter.mp (hbs ▸ List.mem_cons_self b [])).2
      have hall : badgeNudges (q :: rest) = b :: badgeNudges rest := by
        rw [hcons, hbs]
        rfl
      rw [hall]
      cases k with
      | zero =>
        simp only [List.take_zero, List.map_nil]
        have hme : markEntries (q :: rest) []
            = markEntry q :: markEntries rest [] := by
          simp [markEntries, markEntry]
        rw [hme]
        have ih := quota_mark rest 0 hnd'.2 hrest_shape
        simp only [List.take_zero, List.map_nil] at ih
        constructor
        · have : badgeNudges (markEntry q :: markEntries rest [])
              = (markEntry q).2.filter (fun n => n.showBadge)
                ++ badgeNudges (markEntries rest []) := rfl
          rw [this, markEntry_filter, ih.1]
          rfl
        · rw [List.filter_cons, markEntry_any]
          simp only [Bool.false_eq_true, if_neg, ite_false]
          exact ih.2
      | succ k' =>
        have hids : ((b :: badgeNudges rest).take (k' + 1)).map
            (fun n => n.taskId)
            = q.1 :: ((badgeNudges rest).take k').map (fun n => n.taskId) := by
          simp [List.take_succ_cons, hbid]
        rw [hids]
        have hme : markEntries (q :: rest)
            (q.1 :: ((badgeNudges rest).take k').map (fun n => n.taskId))
            = q :: markEntries rest
              (q.1 :: ((badgeNudges rest).take k').map (fun n => n.taskId)) := by
          simp [markEntries]
        rw [hme, markEntries_cons_irrelevant rest q.1 _ hnd'.1]
        have ih := quota_mark rest k' hnd'.2 hrest_shape
        constructor
        · have : badgeNudges (q :: markEntries rest
              (((badgeNudges rest).take k').map (fun n => n.taskId)))
              = q.2.filter (fun n => n.showBadge)
                ++ badgeNudges (markEntries rest
                  (((badgeNudges rest).take k').map (fun n => n.taskId))) :=
            rfl
          rw [this, hbs, ih.1]
          simp [List.take_succ_cons]
        · have hany : q.2.any (fun n => n.showBadge) = true :=
            List.any_eq_true.mpr ⟨b, hbq, hbsb⟩
          rw [List.filter_cons, hany]
          simp only [if_pos]
          rw [List.length_cons, ih.2]
          simp [List.take_succ_cons]

lemma markEntry_idem (q : String × List TaskNudge) :
    markEntry (markEntry q) = markEntry q := by
  simp [markEntry, List.map_map, Function.comp_def, unbadge]

/-- C6: badge quota of `detectAllNudges`.  With more than `maxBadges = 3`
badge candidates: (i) every badge candidate has priority 1 (only overdue
nudges carry badges), so the stable sort is the identity and ties are
broken by original task-list order; (ii) the badge nudges surviving in the
output are exactly the first 3 candidates of the sorted pool — the 3
lowest-priority ones; (iii) exactly 3 tasks show a badge; (iv) modulo the
`showBadge` flag the returned map is unchanged — every detected nudge
object is still present. -/
theorem detectAllNudges_badge_quota (parseDay : String → Nat)
    (today now : Nat) (cooldowns : List (String × Nat)) (tasks : List Task)
    (hnd : (tasks.map Task.id).Nodup)
    (hM : 3 < (badgeNudges (collectNudges parseDay today now cooldowns
        tasks)).length) :
    sortByPriority (badgeNudges (collectNudges parseDay today now
        cooldowns tasks))
        = badgeNudges (collectNudges parseDay today now cooldowns tasks)
    ∧ badgeNudges (detectAllNudges parseDay today now cooldowns tasks 3)
        = (sortByPriority (badgeNudges (collectNudges parseDay today now
            cooldowns tasks))).take 3
    ∧ ((detectAllNudges parseDay today now cooldowns tasks 3).filter
        (fun q => q.2.any (fun n => n.showBadge))).length = 3
    ∧ (detectAllNudges parseDay today now cooldowns tasks 3).map markEntry
        = (collectNudges parseDay today now cooldowns tasks).map
            markEntry := by
  have hshape := collect_shape parseDay today now cooldowns tasks
  have hshape2 : ∀ q ∈ collectNudges parseDay today now cooldowns tasks,
      (∀ n ∈ q.2, n.taskId = q.1)
        ∧ (q.2.filter (fun n => n.showBadge)).length ≤ 1 :=
    fun q h => ⟨(hshape q h).1, (hshape q h).2.1⟩
  have hprio : ∀ n ∈ badgeNudges (collectNudges parseDay today now
      cooldowns tasks), n.priority = 1 ∧ n.showBadge = true :=
    badge_priority_one _ (fun q h => (hshape q h).2.2)
  have hsort : sortByPriority (badgeNudges (collectNudges parseDay today
      now cooldowns tasks))
      = badgeNudges (collectNudges parseDay today now cooldowns tasks) :=
    sort_all_eq _ (fun n h => (hprio n h).1)
  have hndE : ((collectNudges parseDay today now cooldowns tasks).map
      Prod.fst).Nodup :=
    (collect_ids_sublist parseDay today now cooldowns tasks).nodup hnd
  have hquota := quota_mark (collectNudges parseDay today now cooldowns
    tasks) 3 hndE hshape2
  have hout : detectAllNudges parseDay today now cooldowns tasks 3
      = markEntries (collectNudges parseDay today now cooldowns tasks)
        (((badgeNudges (collectNudges parseDay today now cooldowns
          tasks)).take 3).map (fun n => n.taskId)) := by
    simp only [detectAllNudges, applyQuota, if_pos hM, hsort]
  refine ⟨hsort, ?_, ?_, ?_⟩
  · rw [hout, hquota.1, hsort]
  · rw [hout, hquota.2, List.length_take]
    omega
  · rw [hout]
    unfold markEntries
    rw [List.map_map]
    apply List.map_congr_left
    intro q _
    simp only [Function.comp_apply]
    split
    · rfl
    · exact markEntry_idem q

/-- A C6 witness task: overdue (due day 0, today 1), short text. -/
def overdueTask (i : String) : Task :=
  ⟨i, "t", false, .high, .high, some "2020-01-01", 0, none, [], []⟩

/-- Four overdue tasks: four badge candidates, one over the quota. -/
def overdueTasks : List Task :=
  [overdueTask "a", overdueTask "b", overdueTask "c", overdueTask "d"]

/-- Witness for `detectAllNudges_badge_quota` at four concrete overdue
tasks (`parseDay` sends every date to day 0, today is day 1). -/
theorem detectAllNudges_badge_quota_witness :
    sortByPriority (badgeNudges (collectNudges (fun _ => 0) 1 5 []
        overdueTasks))
        = badgeNudges (collectNudges (fun _ => 0) 1 5 [] overdueTasks)
      ∧ ((detectAllNudges (fun _ => 0) 1 5 [] overdueTasks 3).filter
          (fun q => q.2.any (fun n => n.showBadge))).length = 3 :=
  ⟨(detectAllNudges_badge_quota (fun _ => 0) 1 5 [] overdueTasks
      (by decide) (by decide)).1,
   (detectAllNudges_badge_quota (fun _ => 0) 1 5 [] overdueTasks
      (by decide) (by decide)).2.2.1⟩

/-! ## C1: concurrent duplicate requests -/

/-- Identical request parameters issued by both concurrent callers. -/
def coParams : SuggestParams :=
  { taskText := "t", taskId := some "t1", taskSignature := some "sigC" }

/-- The eventual settled value of the first caller's provider call. -/
def coPending : Except String SuggestResult :=
  .ok { suggestions := ["s1"], success := true, fromCache := some false }

/-- C1 counterexample: caller 1 launches the provider call; caller 2
(identical signature, issued 1 s later while the call is outstanding) does
NOT join the in-flight promise — the rate check runs before the coalescer,
the per-task 5-minute bucket (max 1) is already consumed, so caller 2
returns a rate-limited failure that differs from caller 1's settled
result.  Exactly one provider invocation does happen, but the two callers
observe different results, refuting "all K callers receive the same
settled result". -/
theorem coalescing_counterexample :
    (requestEntry coParams coPending 0 emptyClientState).1
        = .launched "sigC"
      ∧ (requestEntry coParams coPending 1000
          (requestEntry coParams coPending 0 emptyClientState).2).1
        = .done (rateLimitedResult msgPerTask5m)
      ∧ (requestEntry coParams coPending 1000
          (requestEntry coParams coPending 0 emptyClientState).2).2.providerCalls
        = 1
      ∧ Except.ok (rateLimitedResult msgPerTask5m) ≠ coPending := by
  refine ⟨by decide, by decide, by decide, by decide⟩

/-- The module state after the first caller's entry section from a fresh
state: one timestamp in each bucket, the in-flight promise registered,
one provider call launched. -/
def afterFirstCall (p : SuggestParams) (v : Except String SuggestResult)
    (t0 : Nat) : ClientState :=
  { perTask5m := [(buildTaskKey p, [t0])],
    perTask1h := [(buildTaskKey p, [t0])],
    perUser1m := [("user-default", [t0])],
    perUser1h := [("user-default", [t0])],
    cache := [],
    inFlight := [(buildTaskKey p, v)],
    providerCalls := 1,
    cachePuts := 0 }

/-- Run the entry sections of a sequence of callers at the given times,
threading the module state (the event-loop discipline: each entry section
is atomic). -/
def runEntries (p : SuggestParams) (v : Except String SuggestResult) :
    List Nat → ClientState → List EntryOutcome × ClientState
  | [], st => ([], st)
  | t :: ts, st =>
    let e := requestEntry p v t st
    let rest := runEntries p v ts e.2
    (e.1 :: rest.1, rest.2)

lemma getCached_empty (tid : Option String) (sig : String) (now : Nat) :
    getCachedSuggestions tid sig now [] = (none, []) := by
  cases tid with
  | none => rfl
  | some t =>
    by_cases h : t = "" ∨ sig = "" <;> simp [getCachedSuggestions, h]

lemma first_entry (p : SuggestParams) (v : Except String SuggestResult)
    (t0 : Nat) :
    requestEntry p v t0 emptyClientState
      = (.launched (buildTaskKey p), afterFirstCall p v t0) := by
  simp [requestEntry, getCached_empty, checkRateLimits, mapWithinLimit,
    withinLimit, pruneWindow, lookupA, setA, afterFirstCall,
    emptyClientState, ratePerTask5m, ratePerTask1h, ratePerUser1m,
    ratePerUser1h]

lemma blocked_entry (p : SuggestParams) (v : Except String SuggestResult)
    (t0 t : Nat) (h : t - t0 ≤ 300000) :
    requestEntry p v t (afterFirstCall p v t0)
      = (.done (rateLimitedResult msgPerTask5m), afterFirstCall p v t0) := by
  have h' : t ≤ 300000 + t0 := by omega
  simp [requestEntry, getCached_empty, checkRateLimits, mapWithinLimit,
    withinLimit, pruneWindow, lookupA, setA, afterFirstCall,
    ratePerTask5m, h']

/-- C1 (amended): with K concurrent `requestSuggestions` calls of
identical signature from a fresh state, the first caller launches exactly
one provider call, and every later caller whose entry runs while that call
is outstanding (within the per-task 5-minute window) triggers no further
network call — but instead of receiving the in-flight call's settled
result, each receives the same per-task rate-limited failure: the rate
check precedes the coalescer, and the first caller consumed the
`perTask5m` bucket (max 1), so the in-flight map is never joined. -/
theorem coalescer_single_flight (p : SuggestParams)
    (v : Except String SuggestResult) (t0 : Nat) (ts : List Nat)
    (hts : ∀ t ∈ ts, t - t0 ≤ 300000) :
    requestEntry p v t0 emptyClientState
        = (.launched (buildTaskKey p), afterFirstCall p v t0)
      ∧ (afterFirstCall p v t0).providerCalls = 1
      ∧ runEntries p v ts (afterFirstCall p v t0)
          = (ts.map (fun _ => .done (rateLimitedResult msgPerTask5m)),
             afterFirstCall p v t0) := by
  refine ⟨first_entry p v t0, rfl, ?_⟩
  induction ts with
  | nil => rfl
  | cons t ts ih =>
    have hb := blocked_entry p v t0 t (hts t (by simp))
    have ih' := ih (fun x hx => hts x (by simp [hx]))
    simp only [runEntries, hb, ih', List.map_cons]

/-- Witness for `coalescer_single_flight`: two later callers at 1 s and
2 s are both rate-limited while the first call is outstanding. -/
theorem coalescer_single_flight_witness :
    requestEntry coParams coPending 0 emptyClientState
        = (.launched (buildTaskKey coParams), afterFirstCall coParams
            coPending 0)
      ∧ (afterFirstCall coParams coPending 0).providerCalls = 1
      ∧ runEntries coParams coPending [1000, 2000]
          (afterFirstCall coParams coPending 0)
          = ([.done (rateLimitedResult msgPerTask5m),
              .done (rateLimitedResult msgPerTask5m)],
             afterFirstCall coParams coPending 0) :=
  coalescer_single_flight coParams coPending 0 [1000, 2000] (by decide)

end Klara
